import Mathlib

/-!
Verification development for the WebGPU softbody simulator.

The development shallowly embeds the parts of the program that the checked
properties talk about:

* the per-substep compute kernel and the delete-compaction kernel of
  `src/shaders/compute.wgsl` (`compute_update`, `compute_delete`), with f32
  arithmetic modelled over `ℚ` and u32 arithmetic modelled over `ℕ` with
  explicit reduction modulo `2^32`;
* the host-side scene store and snapshot codec of `engineMapping.ts`
  (`BufferMapper`, `Particle`, `Beam`, `Metadata`), with every `ArrayBuffer`
  modelled as a byte function `ℕ → ℕ` (reads normalise modulo 256) and f32
  record fields modelled by their 32-bit patterns, since the store and the
  codec only ever move them around as raw bytes;
* the option handling of the engine worker constructor (`engineworker`).
-/

namespace Softbody

/-! ### WGSL scalar helpers (`compute.wgsl`)

`qsign` is WGSL `sign` (with `sign 0 = 0`); `wgslClamp` is WGSL
`clamp(e, low, high) = min(max(e, low), high)`. -/

def qsign (x : ℚ) : ℚ := if 0 < x then 1 else if x < 0 then -1 else 0

def wgslClamp (x lo hi : ℚ) : ℚ := min (max x lo) hi

/-! ### Beam pass of `compute_update` (compute.wgsl lines 94-131)

A beam record as held in the beam storage buffer; all f32 fields are
modelled as exact rationals.  `length` is the original length used as the
strain denominator. -/

structure BeamRec where
  length : ℚ
  targetLength : ℚ
  lastLength : ℚ
  spring : ℚ
  damp : ℚ
  yieldStrain : ℚ
  strainBreakLimit : ℚ
  strain : ℚ
  stress : ℚ
deriving DecidableEq

def beamStressScale : ℚ := 1 / 20

/-- Record update performed by the beam branch of `compute_update`
(lines 108-125), parametrised by `len`, the value `length(diff)` computed
from the two endpoint positions.  Writes back `target_length` (plastic
yield), `stress`, `strain` and `last_length` exactly as the shader does. -/
def beamPassUpdate (beam : BeamRec) (len : ℚ) : BeamRec :=
  let forceMag := (beam.targetLength - len) * beam.spring +
    (beam.lastLength - len) * beam.damp
  let strain := (len - beam.targetLength) / beam.length
  let target' := if |strain| > beam.yieldStrain then
      len - beam.yieldStrain * beam.length * qsign strain
    else beam.targetLength
  { beam with
    targetLength := target'
    stress := forceMag * beamStressScale
    strain := |strain| / beam.yieldStrain
    lastLength := len }

/-- Fracture test of the beam branch (line 117): the beam is marked in the
delete bitmap when `|len - length| > length * strain_break_limit`. -/
def beamMarksDeleted (beam : BeamRec) (len : ℚ) : Bool :=
  |len - beam.length| > beam.length * beam.strainBreakLimit

/-! ### Normalization guard of the beam pass (compute.wgsl lines 103-108)

`diff = p_b - p_a`; when `length(diff) == 0` (over the reals this holds
exactly when both components vanish) the shader replaces `diff` by
`(0, -1e-10)` before calling `normalize`. -/

def vsub (u v : ℚ × ℚ) : ℚ × ℚ := (u.1 - v.1, u.2 - v.2)

def sqLen (v : ℚ × ℚ) : ℚ := v.1 * v.1 + v.2 * v.2

/-- The vector actually passed to `normalize` by the beam pass: the endpoint
difference, perturbed to `(0, -1e-10)` when its length is zero. -/
def guardedDiff (pa pb : ℚ × ℚ) : ℚ × ℚ :=
  if sqLen (vsub pb pa) = 0 then (0, -(1 / 10 ^ 10)) else vsub pb pa

/-! ### Border collision of the particle pass (compute.wgsl lines 189-201)

The tail of the particle branch: clamp the integrated position to
`[R, B - R]` on both axes, and on each clamped axis flip that axis's
velocity times `-border_elasticity` and subtract a friction impulse from
the orthogonal acceleration.  The incoming record is the particle state
right after integration; the returned record is exactly what is stored to
`particles_write`. -/

structure ParticleRec where
  px : ℚ
  py : ℚ
  vx : ℚ
  vy : ℚ
  ax : ℚ
  ay : ℚ
deriving DecidableEq

def borderCollide (R B bE bF : ℚ) (q : ParticleRec) : ParticleRec :=
  let cx := wgslClamp q.px R (B - R)
  let cy := wgslClamp q.py R (B - R)
  let s1 := if q.px ≠ cx then
      { q with
        ay := q.ay - min q.ay (qsign q.vy * bF * |q.vx| * (1 + bE))
        vx := q.vx * (-bE) }
    else q
  let s2 := if s1.py ≠ cy then
      { s1 with
        ax := s1.ax - min s1.ax (qsign s1.vx * bF * |s1.vy| * (1 + bE))
        vy := s1.vy * (-bE) }
    else s1
  { s2 with px := cx, py := cy }

/-! ### Delete-compaction kernel `compute_delete` (compute.wgsl lines 205-241)

The kernel runs in a single workgroup of 64 lanes whose ranges partition
`[0, particle_i_c)` (and the beam half `[max_particles, max_particles +
beam_i_c)`) in increasing order; each marked logical id obtains a
replacement index from an atomically decremented cursor and overwrites its
own mapping entry with the entry at the replacement index.  We model the
mapping at the granularity of its 16-bit entries (the shader reads and
writes them through `extractBits`/`insertBits` on the backing u32 words)
and sequentialise the lanes in increasing range order, which is one legal
interleaving of the atomic decrements.  Cursor arithmetic is u32, i.e.
modulo `2^32`. -/

def U32 : ℕ := 4294967296

def u32sub1 (c : ℕ) : ℕ := (c + (U32 - 1)) % U32

/-- One entry-level update of a function modelling a storage buffer. -/
def upd (m : ℕ → ℕ) (i v : ℕ) : ℕ → ℕ := fun j => if j = i then v else m j

/-- Process a list of marked logical positions: each takes the current
cursor value `c` as replacement index, copies `mapping[c]` into its own
entry, and decrements the cursor (u32 wrap-around). -/
def deleteFold : (ℕ → ℕ) → ℕ → List ℕ → ((ℕ → ℕ) × ℕ)
  | m, c, [] => (m, c)
  | m, c, i :: rest => deleteFold (upd m i (m c)) (u32sub1 c) rest

/-- Logical positions in `[lo, lo + len)` whose delete-bitmap bit is set,
in increasing order (the order in which the lanes' ranges scan them). -/
def markedList (bm : ℕ → Bool) (lo len : ℕ) : List ℕ :=
  ((List.range len).map (lo + ·)).filter bm

/-- Initial values of the two workgroup cursor atomics (lines 214-217):
`delete_index[0] = particle_i_c - 1` and
`delete_index[1] = max_particles + beam_i_c - 1`, in u32 arithmetic. -/
def deleteCursorInit (maxP pc bc : ℕ) : ℕ × ℕ :=
  ((pc + (U32 - 1)) % U32, (maxP + bc + (U32 - 1)) % U32)

structure DeleteOut where
  mapping : ℕ → ℕ
  particleCount : ℕ
  beamCount : ℕ
  bitmap : ℕ → Bool

/-- The whole `compute_delete` dispatch: compact the particle half and the
beam half of the mapping, write back the counts from the final cursor
values (`cursor + 1`, with the beam count additionally subtracting
`max_particles`, all in u32 arithmetic), and clear the first
`⌊(max_particles + max_beams) / 2⌋` words (32 bits each) of the delete
bitmap (the shader computes that word count as `-(i32(maxP + maxB) / -2)`
with truncating i32 division). -/
def computeDelete (maxP maxB pc bc : ℕ) (m : ℕ → ℕ) (bm : ℕ → Bool) : DeleteOut :=
  let c := deleteCursorInit maxP pc bc
  let r1 := deleteFold m c.1 (markedList bm 0 pc)
  let r2 := deleteFold r1.1 c.2 (markedList bm maxP bc)
  { mapping := r2.1
    particleCount := (r1.2 + 1) % U32
    beamCount := (r2.2 + 1 + (U32 - maxP % U32)) % U32
    bitmap := fun i => if i < 32 * ((maxP + maxB) / 2) then false else bm i }

/-! ### Engine worker construction (engineworker, part_000 lines 86-96)

The constructor fixes `boundsSize = 1000` and applies the options: the
particle radius is taken as given and `subticks` is rounded to
`⌈subticks / 2⌉ * 2`.  There is no validation of either option; the only
exceptions thrown during construction concern WebGPU availability, never
the option values. -/

structure EngineOptions where
  particleRadius : Option ℚ
  subticks : Option ℚ

structure EngineConfig where
  boundsSize : ℚ
  particleRadius : ℚ
  subticks : ℤ
deriving DecidableEq

def applyEngineOptions (opts : EngineOptions) : EngineConfig :=
  { boundsSize := 1000
    particleRadius := opts.particleRadius.getD 10
    subticks := match opts.subticks with
      | none => 64
      | some s => ⌈s / 2⌉ * 2 }

/-! ### Byte buffers (host side, `engineMapping.ts`)

Host `ArrayBuffer`s are modelled as functions `ℕ → ℕ`; reads normalise
every byte modulo 256 and writes store values reduced modulo 256, which
matches typed-array truncation.  Multi-byte accesses are little-endian as
in the JavaScript typed arrays the code uses. -/

abbrev Buf := ℕ → ℕ

def zeroBuf : Buf := fun _ => 0

def readByte (b : Buf) (i : ℕ) : ℕ := b i % 256

def writeByte (b : Buf) (i v : ℕ) : Buf := upd b i (v % 256)

def readU16 (b : Buf) (off : ℕ) : ℕ :=
  readByte b off + 256 * readByte b (off + 1)

def writeU16 (b : Buf) (off v : ℕ) : Buf :=
  writeByte (writeByte b off v) (off + 1) (v / 256)

def readU32 (b : Buf) (off : ℕ) : ℕ :=
  readByte b off + 256 * readByte b (off + 1) +
    65536 * readByte b (off + 2) + 16777216 * readByte b (off + 3)

def writeU32 (b : Buf) (off v : ℕ) : Buf :=
  writeByte (writeByte (writeByte (writeByte b off v)
    (off + 1) (v / 256)) (off + 2) (v / 65536)) (off + 3) (v / 16777216)

/-- Copy `len` bytes from `src` starting at `sOff` to `dst` starting at
`dOff` (the `TypedArray.set` copies the code performs). -/
def blit (dst : Buf) (dOff : ℕ) (src : Buf) (sOff len : ℕ) : Buf :=
  fun i => if dOff ≤ i ∧ i < dOff + len then src (sOff + (i - dOff)) % 256 else dst i

/-! ### Host records (`Particle`, `Beam` of `engineMapping.ts`)

The store and the snapshot codec never interpret the f32 fields, they only
move their bytes, so each f32 field is modelled by its 32-bit pattern (a
natural number below `2^32`).  A `Beam`'s endpoints `a`/`b` are particle
ids; the code also accepts `Particle` objects but immediately projects to
`.id` at every use, so ids suffice.  Endpoints are integers because
`Beam.from` can produce `-1` (a failed `indexOf` scan). -/

structure HostParticle where
  id : ℕ
  px : ℕ
  py : ℕ
  vx : ℕ
  vy : ℕ
  ax : ℕ
  ay : ℕ
deriving DecidableEq

structure HostBeam where
  id : ℕ
  a : ℤ
  b : ℤ
  length : ℕ
  targetLen : ℕ
  lastLen : ℕ
  spring : ℕ
  damp : ℕ
  yieldStrain : ℕ
  strainLimit : ℕ
deriving DecidableEq

/-! ### BufferMapper state (`engineMapping.ts` part_002 lines 344-373)

`particles` and `beams` model the insertion-ordered JavaScript `Map`s
keyed by id; `particleBeams` models the `Map<number, Set<Beam>>`, with the
beam sets represented by the lists of their beam ids in insertion order. -/

structure Mapper where
  maxParticles : ℕ
  maxBeams : ℕ
  particles : List HostParticle
  beams : List HostBeam
  particleBeams : List (ℤ × List ℕ)
  metadata : Buf
  particleData : Buf
  beamData : Buf
  mapping : Buf

/-- Metadata buffer as initialised by the `Metadata` constructor
(part_002 lines 255-276): `indirectView[0] = 3`, `indirectView[5] = 2`,
max counts at bytes 40/44, `userStrength = 1.0f` at byte 80, and the
default physics constants at bytes 48-79 (f32 values written as their
IEEE-754 bit patterns: gravity `(0, -0.5)`, borderElasticity `0.5`,
borderFriction `0.2`, elasticity `0.5`, friction `0.1`, dragCoeff `0.001`,
dragExp `2`). -/
def metadataInit (maxP maxB : ℕ) : Buf :=
  writeU32 (writeU32 (writeU32 (writeU32 (writeU32 (writeU32 (writeU32
    (writeU32 (writeU32 (writeU32 (writeU32 (writeU32 (writeU32 zeroBuf
      0 3) 20 2) 40 maxP) 44 maxB) 80 1065353216)
      48 0) 52 3204448256) 56 1056964608) 60 1045220557)
      64 1056964608) 68 1036831949) 72 981668463) 76 1073741824

/-- The `BufferMapper` constructor (part_002 lines 363-373).  The capacity
is `Math.min(65536, maxByteLength / 4, ⌊maxByteLength / 24⌋)`; the floor
term never exceeds `maxByteLength / 4`, so the result is
`min 65536 ⌊maxByteLength / 24⌋` (the same expression — with the particle
stride — is used for `maxBeams` as well). -/
def mkMapper (maxByteLength : ℕ) : Mapper :=
  let maxP := min 65536 (maxByteLength / 24)
  let maxB := min 65536 (maxByteLength / 24)
  { maxParticles := maxP
    maxBeams := maxB
    particles := []
    beams := []
    particleBeams := []
    metadata := metadataInit maxP maxB
    particleData := zeroBuf
    beamData := zeroBuf
    mapping := zeroBuf }

/-! ### Scene store operations (part_002 lines 435-498) -/

def findParticle (M : Mapper) (pid : ℕ) : Option HostParticle :=
  M.particles.find? (fun p => p.id == pid)

def findBeam (M : Mapper) (bid : ℕ) : Option HostBeam :=
  M.beams.find? (fun x => x.id == bid)

def pbGet (l : List (ℤ × List ℕ)) (k : ℤ) : Option (List ℕ) :=
  (l.find? (fun e => e.1 == k)).map (fun e => e.2)

def pbSet (l : List (ℤ × List ℕ)) (k : ℤ) (v : List ℕ) : List (ℤ × List ℕ) :=
  if l.any (fun e => e.1 == k) then
    l.map (fun e => if e.1 == k then (k, v) else e)
  else l ++ [(k, v)]

def setAdd (s : List ℕ) (x : ℕ) : List ℕ := if x ∈ s then s else s ++ [x]

/-- Model of `particleBeams.get(k)!.add(bid)` after ensuring the entry exists. -/
def pbAdd (l : List (ℤ × List ℕ)) (k : ℤ) (bid : ℕ) : List (ℤ × List ℕ) :=
  pbSet l k (setAdd ((pbGet l k).getD []) bid)

/-- Model of `particleBeams.get(k)?.delete(beam)`. -/
def pbRemove (l : List (ℤ × List ℕ)) (k : ℤ) (bid : ℕ) : List (ℤ × List ℕ) :=
  l.map (fun e => if e.1 == k then (e.1, e.2.filter (fun x => !(x == bid))) else e)

def addParticle (M : Mapper) (p : HostParticle) : Mapper × Bool :=
  if M.particles.length == M.maxParticles || M.particles.any (fun q => q.id == p.id) then
    (M, false)
  else ({ M with particles := M.particles ++ [p] }, true)

def addBeam (M : Mapper) (x : HostBeam) : Mapper × Bool :=
  if M.beams.length == M.maxBeams || M.beams.any (fun q => q.id == x.id) then
    (M, false)
  else
    ({ M with
        beams := M.beams ++ [x]
        particleBeams := pbAdd (pbAdd M.particleBeams x.a x.id) x.b x.id }, true)

/-- Operation `removeParticle` (part_002 lines 451-454): deletes the particle from
the particle map and returns whether it was present.  It touches neither
the beam map nor the per-particle beam sets. -/
def removeParticle (M : Mapper) (pid : ℕ) : Mapper × Bool :=
  ({ M with particles := M.particles.filter (fun p => !(p.id == pid)) },
    M.particles.any (fun p => p.id == pid))

/-- Operation `removeBeam` (part_002 lines 455-464): looks the beam up by id,
deletes it from the beam map and from both endpoints' beam sets. -/
def removeBeam (M : Mapper) (bid : ℕ) : Mapper × Bool :=
  match M.beams.find? (fun x => x.id == bid) with
  | none => (M, false)
  | some beam =>
    ({ M with
        beams := M.beams.filter (fun x => !(x.id == beam.id))
        particleBeams := pbRemove (pbRemove M.particleBeams beam.a beam.id) beam.b beam.id },
      true)

def getConnectedBeams (M : Mapper) (pid : ℤ) : List ℕ :=
  (pbGet M.particleBeams pid).getD []

/-! ### Packing the store into the buffers (`writeState`, part_002
lines 503-520, with `Particle.to` lines 121-127 and `Beam.to`
lines 181-197) -/

/-- Encoding loop of `writeState`; each step is `Particle.to`: store the mapping entry `mBuf[id] = index` (here the
renumbered id equals `index`) and the six f32 words at byte `24 * index`.
Returns the updated `(particleData, mapping)`. -/
def particleTo (pData : Buf) (off : ℕ) (p : HostParticle) : Buf :=
  writeU32 (writeU32 (writeU32 (writeU32 (writeU32 (writeU32 pData
    off p.px) (off + 4) p.py) (off + 8) p.vx)
    (off + 12) p.vy) (off + 16) p.ax) (off + 20) p.ay

def writeParticlesFrom : Buf → Buf → ℕ → List HostParticle → Buf × Buf
  | pData, mapping, _, [] => (pData, mapping)
  | pData, mapping, i, p :: rest =>
    writeParticlesFrom (particleTo pData (24 * i) p)
      (writeU16 mapping (2 * i) i) (i + 1) rest

/-- Model of `particleIdRemap.get(id) ?? id`: the position of the first particle
with the given id, or the id unchanged when no particle has it. -/
def idRemap (ps : List HostParticle) (e : ℤ) : ℤ :=
  match ps.enum.find? (fun q => ((q.2.id : ℤ)) == e) with
  | some q => (q.1 : ℤ)
  | none => e

/-- Read `mBuf[idx]` for a (possibly remapped, possibly out-of-range) endpoint:
an out-of-range typed-array read yields `undefined`, which a u16 store
turns into `0`. -/
def readU16Checked (mapping : Buf) (limit : ℕ) (idx : ℤ) : ℕ :=
  if 0 ≤ idx ∧ idx < (limit : ℤ) then readU16 mapping (2 * idx.toNat) else 0

/-- Encoding step `Beam.to` for the renumbered beam at position `i`: write the beam-half
mapping entry, resolve both endpoints through the mapping (in that order:
the mapping write happens first), then store the packed index pair and the
seven f32 words `length .. strainLimit` at byte `40 * i` (bytes 32-39,
the strain/stress fields, are left untouched). -/
def beamDataTo (bData : Buf) (off ia ib : ℕ) (x : HostBeam) : Buf :=
  writeU32 (writeU32 (writeU32 (writeU32 (writeU32 (writeU32 (writeU32
    (writeU16 (writeU16 bData off ia) (off + 2) ib)
    (off + 4) x.length) (off + 8) x.targetLen)
    (off + 12) x.lastLen) (off + 16) x.spring)
    (off + 20) x.damp) (off + 24) x.yieldStrain)
    (off + 28) x.strainLimit

def writeBeamsFrom (maxP maxB : ℕ) (remap : ℤ → ℤ) :
    Buf → Buf → ℕ → List HostBeam → Buf × Buf
  | bData, mapping, _, [] => (bData, mapping)
  | bData, mapping, i, x :: rest =>
    let mapping1 := writeU16 mapping (2 * (maxP + i)) i
    let ia := readU16Checked mapping1 (maxP + maxB) (remap x.a)
    let ib := readU16Checked mapping1 (maxP + maxB) (remap x.b)
    writeBeamsFrom maxP maxB remap (beamDataTo bData (40 * i) ia ib x)
      mapping1 (i + 1) rest

/-- Operation `writeState`: store the live counts into the metadata (u32 words at
bytes 4 and 24), renumber the particles by insertion order and pack them,
then pack the beams with endpoints remapped through `particleIdRemap`. -/
def writeState (M : Mapper) : Mapper :=
  let meta := writeU32 (writeU32 M.metadata 4 M.particles.length)
    24 M.beams.length
  let r1 := writeParticlesFrom M.particleData M.mapping 0 M.particles
  let r2 := writeBeamsFrom M.maxParticles M.maxBeams (idRemap M.particles)
    M.beamData r1.2 0 M.beams
  { M with metadata := meta, particleData := r1.1, mapping := r2.2, beamData := r2.1 }

/-! ### Rebuilding the store from the buffers (`loadState`, part_002
lines 524-530, with `Particle.from` lines 129-133 and `Beam.from`
lines 199-208) -/

def particleFrom (pData mapping : Buf) (pid : ℕ) : HostParticle :=
  let index := readU16 mapping (2 * pid)
  { id := pid
    px := readU32 pData (24 * index)
    py := readU32 pData (24 * index + 4)
    vx := readU32 pData (24 * index + 8)
    vy := readU32 pData (24 * index + 12)
    ax := readU32 pData (24 * index + 16)
    ay := readU32 pData (24 * index + 20) }

/-- Scan `mBuf.indexOf(v)` over the whole `count`-entry u16 view of the mapping
buffer: position of the first entry equal to `v`, or `-1`. -/
def indexOfU16 (mapping : Buf) (count v : ℕ) : ℤ :=
  match (List.range count).find? (fun j => readU16 mapping (2 * j) == v) with
  | some j => (j : ℤ)
  | none => -1

def beamFrom (bData mapping : Buf) (maxP maxB bid : ℕ) : HostBeam :=
  let index := readU16 mapping (2 * (maxP + bid))
  { id := bid
    a := indexOfU16 mapping (maxP + maxB) (readU16 bData (40 * index))
    b := indexOfU16 mapping (maxP + maxB) (readU16 bData (40 * index + 2))
    length := readU32 bData (40 * index + 4)
    targetLen := readU32 bData (40 * index + 8)
    lastLen := readU32 bData (40 * index + 12)
    spring := readU32 bData (40 * index + 16)
    damp := readU32 bData (40 * index + 20)
    yieldStrain := readU32 bData (40 * index + 24)
    strainLimit := readU32 bData (40 * index + 28) }

/-- Operation `loadState`: clear the three maps, then re-add `particleCount`
particles and `beamCount` beams decoded from the buffers (the counts are
the u32 metadata words at bytes 4 and 24). -/
def loadState (M : Mapper) : Mapper :=
  let M0 := { M with particles := [], beams := [], particleBeams := ([] : List (ℤ × List ℕ)) }
  let M1 := (List.range (readU32 M.metadata 4)).foldl
    (fun acc i => (addParticle acc (particleFrom M.particleData M.mapping i)).1) M0
  (List.range (readU32 M.metadata 24)).foldl
    (fun acc i =>
      (addBeam acc (beamFrom M.beamData M.mapping M.maxParticles M.maxBeams i)).1) M1

/-! ### Snapshot codec (part_002 lines 380-433)

A snapshot is a 12-byte header of six u16 words — of which the code fills
five: the byte sizes of the particle-mapping, particle-data, beam-mapping
and beam-data sections and of the constants slab — followed by the
constants slab (metadata bytes 48-79) and the four live sections.  The
header stores the byte sizes truncated to 16 bits; the section offsets
inside the blob use the untruncated sizes. -/

def createSnapshotBuffer (M : Mapper) : Mapper × Buf :=
  let M1 := writeState M
  let pCount := readU32 M1.metadata 4
  let bCount := readU32 M1.metadata 24
  let pms := 2 * pCount
  let pds := 24 * pCount
  let bms := 2 * bCount
  let bds := 40 * bCount
  let h := writeU16 (writeU16 (writeU16 (writeU16 (writeU16 zeroBuf
    0 pms) 2 pds) 4 bms) 6 bds) 8 32
  let s1 := blit h 12 M1.metadata 48 32
  let s2 := blit s1 44 M1.mapping 0 pms
  let s3 := blit s2 (44 + pms) M1.particleData 0 pds
  let s4 := blit s3 (44 + pms + pds) M1.mapping (2 * M1.maxParticles) bms
  let s5 := blit s4 (44 + pms + pds + bms) M1.beamData 0 bds
  (M1, s5)

/-- Operation `loadSnapshotbuffer`: parse the five header words; fail (returning
`false` and changing nothing) when `particleMappingSize > maxParticles`
or `beamMappingSize > maxBeams` — note both sides of each comparison: a
section **byte** size against an entity **count**.  Otherwise copy the
constants slab and the four sections back into the state buffers, set the
live counts to half the mapping-section byte sizes, and rebuild the maps
with `loadState`. -/
def loadSnapshotbuffer (M : Mapper) (buf : Buf) : Mapper × Bool :=
  let pms := readU16 buf 0
  let pds := readU16 buf 2
  let bms := readU16 buf 4
  let bds := readU16 buf 6
  let ms := readU16 buf 8
  if pms > M.maxParticles ∨ bms > M.maxBeams then (M, false)
  else
    let meta1 := blit M.metadata 48 buf 12 (4 * (ms / 4))
    let base := 12 + ms
    let map1 := blit M.mapping 0 buf base pms
    let pd1 := blit M.particleData 0 buf (base + pms) pds
    let map2 := blit map1 (2 * M.maxParticles) buf (base + pms + pds) bms
    let bd1 := blit M.beamData 0 buf (base + pms + pds + bms) bds
    let meta2 := writeU32 (writeU32 meta1 4 (pms / 2)) 24 (bms / 2)
    (loadState { M with
        metadata := meta2
        mapping := map2
        particleData := pd1
        beamData := bd1 }, true)

/-! ### The deterministic renumbering of the snapshot round-trip

`writeState` renumbers every particle to its insertion position and every
beam likewise, rewriting beam endpoints through `idRemap`; these are the
states `loadState` reconstructs. -/

def renumberParticles (ps : List HostParticle) : List HostParticle :=
  ps.enum.map (fun e => { e.2 with id := e.1 })

def renumberBeams (ps : List HostParticle) (bs : List HostBeam) : List HostBeam :=
  bs.enum.map (fun e =>
    { e.2 with id := e.1, a := idRemap ps e.2.a, b := idRemap ps e.2.b })

/-- The f32 fields of a host particle are 32-bit patterns. -/
def particleFieldsLt (p : HostParticle) : Prop :=
  p.px < 4294967296 ∧ p.py < 4294967296 ∧ p.vx < 4294967296 ∧
  p.vy < 4294967296 ∧ p.ax < 4294967296 ∧ p.ay < 4294967296

/-- The f32 fields of a host beam are 32-bit patterns. -/
def beamFieldsLt (x : HostBeam) : Prop :=
  x.length < 4294967296 ∧ x.targetLen < 4294967296 ∧ x.lastLen < 4294967296 ∧
  x.spring < 4294967296 ∧ x.damp < 4294967296 ∧ x.yieldStrain < 4294967296 ∧
  x.strainLimit < 4294967296

instance (p : HostParticle) : Decidable (particleFieldsLt p) := by
  unfold particleFieldsLt; infer_instance

instance (x : HostBeam) : Decidable (beamFieldsLt x) := by
  unfold beamFieldsLt; infer_instance

/-! ### Concrete states used by the concrete theorems

A mapper constructed with `maxByteLength = 96` has `maxParticles =
maxBeams = 4`. -/

def mapper96 : Mapper := mkMapper 96

def c2State : Mapper :=
  (addBeam
    ((addParticle ((addParticle mapper96 ⟨0, 1, 2, 3, 4, 5, 6⟩).1)
      ⟨1, 7, 8, 9, 10, 11, 12⟩).1)
    ⟨5, 0, 1, 100, 101, 102, 103, 104, 105, 106⟩).1

def c1State : Mapper :=
  (addParticle ((addParticle ((addParticle mapper96 ⟨0, 1, 2, 3, 4, 5, 6⟩).1)
    ⟨1, 7, 8, 9, 10, 11, 12⟩).1) ⟨2, 13, 14, 15, 16, 17, 18⟩).1

def c3State : Mapper :=
  (addBeam mapper96 ⟨0, 2, 3, 100, 101, 102, 103, 104, 105, 106⟩).1

/-! ## Helper lemmas -/

theorem wgslClamp_le (x lo hi : ℚ) (h : lo ≤ hi) :
    lo ≤ wgslClamp x lo hi ∧ wgslClamp x lo hi ≤ hi :=
  ⟨le_min (le_max_right _ _) h, min_le_right _ _⟩

theorem markedList_nil (bm : ℕ → Bool) (lo len : ℕ) (h : ∀ i, bm i = false) :
    markedList bm lo len = [] := by
  simp [markedList, List.filter_eq_nil_iff]
  intro a _
  exact h _

theorem upd_self (m : ℕ → ℕ) (i v : ℕ) : upd m i v i = v := by simp [upd]

theorem upd_ne (m : ℕ → ℕ) (i v : ℕ) {j : ℕ} (h : j ≠ i) : upd m i v j = m j := by
  simp [upd, h]

theorem writeU16_ne (b : Buf) (off v : ℕ) {j : ℕ} (h : j < off ∨ off + 2 ≤ j) :
    writeU16 b off v j = b j := by
  simp only [writeU16, writeByte]
  rw [upd_ne _ _ _ (by omega), upd_ne _ _ _ (by omega)]

theorem writeU32_ne (b : Buf) (off v : ℕ) {j : ℕ} (h : j < off ∨ off + 4 ≤ j) :
    writeU32 b off v j = b j := by
  simp only [writeU32, writeByte]
  rw [upd_ne _ _ _ (by omega), upd_ne _ _ _ (by omega),
    upd_ne _ _ _ (by omega), upd_ne _ _ _ (by omega)]

theorem readU16_congr {b1 b2 : Buf} {off : ℕ} (h0 : b1 off = b2 off)
    (h1 : b1 (off + 1) = b2 (off + 1)) : readU16 b1 off = readU16 b2 off := by
  simp [readU16, readByte, h0, h1]

theorem readU32_congr {b1 b2 : Buf} {off : ℕ} (h0 : b1 off = b2 off)
    (h1 : b1 (off + 1) = b2 (off + 1)) (h2 : b1 (off + 2) = b2 (off + 2))
    (h3 : b1 (off + 3) = b2 (off + 3)) : readU32 b1 off = readU32 b2 off := by
  simp [readU32, readByte, h0, h1, h2, h3]

theorem readU16_congr_mod {b1 b2 : Buf} {off : ℕ} (h0 : b1 off = b2 off % 256)
    (h1 : b1 (off + 1) = b2 (off + 1) % 256) :
    readU16 b1 off = readU16 b2 off := by
  simp only [readU16, readByte, h0, h1]
  omega

theorem readU32_congr_mod {b1 b2 : Buf} {off : ℕ} (h0 : b1 off = b2 off % 256)
    (h1 : b1 (off + 1) = b2 (off + 1) % 256) (h2 : b1 (off + 2) = b2 (off + 2) % 256)
    (h3 : b1 (off + 3) = b2 (off + 3) % 256) :
    readU32 b1 off = readU32 b2 off := by
  simp only [readU32, readByte, h0, h1, h2, h3]
  omega

theorem readU16_writeU16 (b : Buf) (off v : ℕ) :
    readU16 (writeU16 b off v) off = v % 65536 := by
  simp only [readU16, readByte, writeU16, writeByte]
  rw [upd_ne _ _ _ (by omega), upd_self, upd_self]
  omega

theorem readU32_writeU32 (b : Buf) (off v : ℕ) :
    readU32 (writeU32 b off v) off = v % 4294967296 := by
  have h0 : writeU32 b off v off = v % 256 := by
    simp only [writeU32, writeByte]
    rw [upd_ne _ _ _ (by omega), upd_ne _ _ _ (by omega),
      upd_ne _ _ _ (by omega), upd_self]
  have h1 : writeU32 b off v (off + 1) = v / 256 % 256 := by
    simp only [writeU32, writeByte]
    rw [upd_ne _ _ _ (by omega), upd_ne _ _ _ (by omega), upd_self]
  have h2 : writeU32 b off v (off + 2) = v / 65536 % 256 := by
    simp only [writeU32, writeByte]
    rw [upd_ne _ _ _ (by omega), upd_self]
  have h3 : writeU32 b off v (off + 3) = v / 16777216 % 256 := by
    simp only [writeU32, writeByte]
    rw [upd_self]
  simp only [readU32, readByte, h0, h1, h2, h3]
  omega

theorem readU16_lt (b : Buf) (off : ℕ) : readU16 b off < 65536 := by
  have h1 : b off % 256 < 256 := Nat.mod_lt _ (by norm_num)
  have h2 : b (off + 1) % 256 < 256 := Nat.mod_lt _ (by norm_num)
  simp only [readU16, readByte]
  omega

theorem readU16_writeU16_ne (b : Buf) (off v off' : ℕ)
    (h : off' + 2 ≤ off ∨ off + 2 ≤ off') :
    readU16 (writeU16 b off v) off' = readU16 b off' :=
  readU16_congr (writeU16_ne _ _ _ (by omega)) (writeU16_ne _ _ _ (by omega))

theorem readU16_writeU32_ne (b : Buf) (off v off' : ℕ)
    (h : off' + 2 ≤ off ∨ off + 4 ≤ off') :
    readU16 (writeU32 b off v) off' = readU16 b off' :=
  readU16_congr (writeU32_ne _ _ _ (by omega)) (writeU32_ne _ _ _ (by omega))

theorem readU32_writeU16_ne (b : Buf) (off v off' : ℕ)
    (h : off' + 4 ≤ off ∨ off + 2 ≤ off') :
    readU32 (writeU16 b off v) off' = readU32 b off' :=
  readU32_congr (writeU16_ne _ _ _ (by omega)) (writeU16_ne _ _ _ (by omega))
    (writeU16_ne _ _ _ (by omega)) (writeU16_ne _ _ _ (by omega))

theorem readU32_writeU32_ne (b : Buf) (off v off' : ℕ)
    (h : off' + 4 ≤ off ∨ off + 4 ≤ off') :
    readU32 (writeU32 b off v) off' = readU32 b off' :=
  readU32_congr (writeU32_ne _ _ _ (by omega)) (writeU32_ne _ _ _ (by omega))
    (writeU32_ne _ _ _ (by omega)) (writeU32_ne _ _ _ (by omega))

theorem blit_inside (dst : Buf) (dOff : ℕ) (src : Buf) (sOff len : ℕ) {i : ℕ}
    (h1 : dOff ≤ i) (h2 : i < dOff + len) :
    blit dst dOff src sOff len i = src (sOff + (i - dOff)) % 256 := by
  simp [blit, h1, h2]

theorem blit_outside (dst : Buf) (dOff : ℕ) (src : Buf) (sOff len : ℕ) {i : ℕ}
    (h : i < dOff ∨ dOff + len ≤ i) :
    blit dst dOff src sOff len i = dst i := by
  rcases h with h | h <;> simp [blit] <;> omega

theorem readU16_blit_outside (dst : Buf) (dOff : ℕ) (src : Buf) (sOff len off : ℕ)
    (h : off + 2 ≤ dOff ∨ dOff + len ≤ off) :
    readU16 (blit dst dOff src sOff len) off = readU16 dst off :=
  readU16_congr (blit_outside _ _ _ _ _ (by omega)) (blit_outside _ _ _ _ _ (by omega))

theorem readU32_blit_outside (dst : Buf) (dOff : ℕ) (src : Buf) (sOff len off : ℕ)
    (h : off + 4 ≤ dOff ∨ dOff + len ≤ off) :
    readU32 (blit dst dOff src sOff len) off = readU32 dst off :=
  readU32_congr (blit_outside _ _ _ _ _ (by omega)) (blit_outside _ _ _ _ _ (by omega))
    (blit_outside _ _ _ _ _ (by omega)) (blit_outside _ _ _ _ _ (by omega))

theorem readU16_blit_inside (dst : Buf) (dOff : ℕ) (src : Buf) (sOff len off : ℕ)
    (h1 : dOff ≤ off) (h2 : off + 2 ≤ dOff + len) :
    readU16 (blit dst dOff src sOff len) off = readU16 src (sOff + (off - dOff)) := by
  simp only [readU16, readByte]
  rw [blit_inside _ _ _ _ _ (by omega) (by omega),
    blit_inside _ _ _ _ _ (by omega) (by omega)]
  have harith : sOff + (off + 1 - dOff) = sOff + (off - dOff) + 1 := by omega
  rw [harith]
  omega

theorem readU32_blit_inside (dst : Buf) (dOff : ℕ) (src : Buf) (sOff len off : ℕ)
    (h1 : dOff ≤ off) (h2 : off + 4 ≤ dOff + len) :
    readU32 (blit dst dOff src sOff len) off = readU32 src (sOff + (off - dOff)) := by
  simp only [readU32, readByte]
  rw [blit_inside _ _ _ _ _ (by omega) (by omega),
    blit_inside _ _ _ _ _ (by omega) (by omega),
    blit_inside _ _ _ _ _ (by omega) (by omega),
    blit_inside _ _ _ _ _ (by omega) (by omega)]
  have ha1 : sOff + (off + 1 - dOff) = sOff + (off - dOff) + 1 := by omega
  have ha2 : sOff + (off + 2 - dOff) = sOff + (off - dOff) + 2 := by omega
  have ha3 : sOff + (off + 3 - dOff) = sOff + (off - dOff) + 3 := by omega
  rw [ha1, ha2, ha3]
  omega

/-! ### Lemmas about the packing folds of `writeState` -/

theorem writeParticlesFrom_mapping_outside (ps : List HostParticle) :
    ∀ (pData mapping : Buf) (i0 j : ℕ),
      (j < 2 * i0 ∨ 2 * (i0 + ps.length) ≤ j) →
      (writeParticlesFrom pData mapping i0 ps).2 j = mapping j := by
  induction ps with
  | nil => intro _ _ _ _ _; rfl
  | cons p rest ih =>
    intro pData mapping i0 j hj
    simp only [List.length_cons] at hj
    simp only [writeParticlesFrom]
    rw [ih _ _ (i0 + 1) j (by omega)]
    exact writeU16_ne _ _ _ (by omega)

theorem writeParticlesFrom_mapping_read (ps : List HostParticle) :
    ∀ (pData mapping : Buf) (i0 t : ℕ), t < ps.length →
      readU16 (writeParticlesFrom pData mapping i0 ps).2 (2 * (i0 + t)) =
        (i0 + t) % 65536 := by
  induction ps with
  | nil => intro _ _ _ t ht; simp at ht
  | cons p rest ih =>
    intro pData mapping i0 t ht
    simp only [writeParticlesFrom]
    rcases Nat.eq_zero_or_pos t with h0 | hpos
    · subst h0
      rw [readU16_congr
        (writeParticlesFrom_mapping_outside rest _ _ (i0 + 1) _ (by omega))
        (writeParticlesFrom_mapping_outside rest _ _ (i0 + 1) _ (by omega))]
      simpa using readU16_writeU16 mapping (2 * i0) i0
    · obtain ⟨u, rfl⟩ : ∃ u, t = u + 1 := ⟨t - 1, by omega⟩
      have harith : i0 + (u + 1) = i0 + 1 + u := by omega
      rw [harith]
      exact ih _ _ (i0 + 1) u (by simp only [List.length_cons] at ht; omega)

theorem writeBeamsFrom_mapping_outside (bs : List HostBeam) :
    ∀ (maxP maxB : ℕ) (remap : ℤ → ℤ) (bData mapping : Buf) (i0 j : ℕ),
      (j < 2 * (maxP + i0) ∨ 2 * (maxP + i0 + bs.length) ≤ j) →
      (writeBeamsFrom maxP maxB remap bData mapping i0 bs).2 j = mapping j := by
  induction bs with
  | nil => intro _ _ _ _ _ _ _ _; rfl
  | cons x rest ih =>
    intro maxP maxB remap bData mapping i0 j hj
    simp only [List.length_cons] at hj
    simp only [writeBeamsFrom]
    rw [ih _ _ _ _ _ (i0 + 1) j (by omega)]
    exact writeU16_ne _ _ _ (by omega)

theorem writeBeamsFrom_mapping_read (bs : List HostBeam) :
    ∀ (maxP maxB : ℕ) (remap : ℤ → ℤ) (bData mapping : Buf) (i0 t : ℕ),
      t < bs.length →
      readU16 (writeBeamsFrom maxP maxB remap bData mapping i0 bs).2
        (2 * (maxP + i0 + t)) = (i0 + t) % 65536 := by
  induction bs with
  | nil => intro _ _ _ _ _ _ t ht; simp at ht
  | cons x rest ih =>
    intro maxP maxB remap bData mapping i0 t ht
    simp only [writeBeamsFrom]
    rcases Nat.eq_zero_or_pos t with h0 | hpos
    · subst h0
      rw [readU16_congr
        (writeBeamsFrom_mapping_outside rest _ _ _ _ _ (i0 + 1) _ (by omega))
        (writeBeamsFrom_mapping_outside rest _ _ _ _ _ (i0 + 1) _ (by omega))]
      simpa using readU16_writeU16 mapping (2 * (maxP + i0)) i0
    · obtain ⟨u, rfl⟩ : ∃ u, t = u + 1 := ⟨t - 1, by omega⟩
      have harith : maxP + i0 + (u + 1) = maxP + (i0 + 1) + u := by omega
      have harith2 : i0 + (u + 1) = i0 + 1 + u := by omega
      rw [harith, harith2]
      exact ih maxP maxB remap _ _ (i0 + 1) u
        (by simp only [List.length_cons] at ht; omega)

theorem particleTo_outside (pData : Buf) (off : ℕ) (p : HostParticle) {j : ℕ}
    (h : j < off ∨ off + 24 ≤ j) : particleTo pData off p j = pData j := by
  simp only [particleTo]
  rw [writeU32_ne _ _ _ (by omega), writeU32_ne _ _ _ (by omega),
    writeU32_ne _ _ _ (by omega), writeU32_ne _ _ _ (by omega),
    writeU32_ne _ _ _ (by omega), writeU32_ne _ _ _ (by omega)]

theorem particleTo_read (pData : Buf) (off : ℕ) (p : HostParticle) :
    readU32 (particleTo pData off p) off = p.px % 4294967296 ∧
    readU32 (particleTo pData off p) (off + 4) = p.py % 4294967296 ∧
    readU32 (particleTo pData off p) (off + 8) = p.vx % 4294967296 ∧
    readU32 (particleTo pData off p) (off + 12) = p.vy % 4294967296 ∧
    readU32 (particleTo pData off p) (off + 16) = p.ax % 4294967296 ∧
    readU32 (particleTo pData off p) (off + 20) = p.ay % 4294967296 := by
  refine ⟨?_, ?_, ?_, ?_, ?_, ?_⟩ <;> simp only [particleTo]
  · rw [readU32_writeU32_ne _ _ _ _ (by omega), readU32_writeU32_ne _ _ _ _ (by omega),
      readU32_writeU32_ne _ _ _ _ (by omega), readU32_writeU32_ne _ _ _ _ (by omega),
      readU32_writeU32_ne _ _ _ _ (by omega), readU32_writeU32]
  · rw [readU32_writeU32_ne _ _ _ _ (by omega), readU32_writeU32_ne _ _ _ _ (by omega),
      readU32_writeU32_ne _ _ _ _ (by omega), readU32_writeU32_ne _ _ _ _ (by omega),
      readU32_writeU32]
  · rw [readU32_writeU32_ne _ _ _ _ (by omega), readU32_writeU32_ne _ _ _ _ (by omega),
      readU32_writeU32_ne _ _ _ _ (by omega), readU32_writeU32]
  · rw [readU32_writeU32_ne _ _ _ _ (by omega), readU32_writeU32_ne _ _ _ _ (by omega),
      readU32_writeU32]
  · rw [readU32_writeU32_ne _ _ _ _ (by omega), readU32_writeU32]
  · rw [readU32_writeU32]

theorem beamDataTo_outside (bData : Buf) (off ia ib : ℕ) (x : HostBeam) {j : ℕ}
    (h : j < off ∨ off + 32 ≤ j) : beamDataTo bData off ia ib x j = bData j := by
  simp only [beamDataTo]
  rw [writeU32_ne _ _ _ (by omega), writeU32_ne _ _ _ (by omega),
    writeU32_ne _ _ _ (by omega), writeU32_ne _ _ _ (by omega),
    writeU32_ne _ _ _ (by omega), writeU32_ne _ _ _ (by omega),
    writeU32_ne _ _ _ (by omega), writeU16_ne _ _ _ (by omega),
    writeU16_ne _ _ _ (by omega)]

theorem beamDataTo_read (bData : Buf) (off ia ib : ℕ) (x : HostBeam) :
    readU16 (beamDataTo bData off ia ib x) off = ia % 65536 ∧
    readU16 (beamDataTo bData off ia ib x) (off + 2) = ib % 65536 ∧
    readU32 (beamDataTo bData off ia ib x) (off + 4) = x.length % 4294967296 ∧
    readU32 (beamDataTo bData off ia ib x) (off + 8) = x.targetLen % 4294967296 ∧
    readU32 (beamDataTo bData off ia ib x) (off + 12) = x.lastLen % 4294967296 ∧
    readU32 (beamDataTo bData off ia ib x) (off + 16) = x.spring % 4294967296 ∧
    readU32 (beamDataTo bData off ia ib x) (off + 20) = x.damp % 4294967296 ∧
    readU32 (beamDataTo bData off ia ib x) (off + 24) = x.yieldStrain % 4294967296 ∧
    readU32 (beamDataTo bData off ia ib x) (off + 28) = x.strainLimit % 4294967296 := by
  refine ⟨?_, ?_, ?_, ?_, ?_, ?_, ?_, ?_, ?_⟩ <;> simp only [beamDataTo]
  · rw [readU16_writeU32_ne _ _ _ _ (by omega), readU16_writeU32_ne _ _ _ _ (by omega),
      readU16_writeU32_ne _ _ _ _ (by omega), readU16_writeU32_ne _ _ _ _ (by omega),
      readU16_writeU32_ne _ _ _ _ (by omega), readU16_writeU32_ne _ _ _ _ (by omega),
      readU16_writeU32_ne _ _ _ _ (by omega), readU16_writeU16_ne _ _ _ _ (by omega),
      readU16_writeU16]
  · rw [readU16_writeU32_ne _ _ _ _ (by omega), readU16_writeU32_ne _ _ _ _ (by omega),
      readU16_writeU32_ne _ _ _ _ (by omega), readU16_writeU32_ne _ _ _ _ (by omega),
      readU16_writeU32_ne _ _ _ _ (by omega), readU16_writeU32_ne _ _ _ _ (by omega),
      readU16_writeU32_ne _ _ _ _ (by omega), readU16_writeU16]
  · rw [readU32_writeU32_ne _ _ _ _ (by omega), readU32_writeU32_ne _ _ _ _ (by omega),
      readU32_writeU32_ne _ _ _ _ (by omega), readU32_writeU32_ne _ _ _ _ (by omega),
      readU32_writeU32_ne _ _ _ _ (by omega), readU32_writeU32_ne _ _ _ _ (by omega),
      readU32_writeU32]
  · rw [readU32_writeU32_ne _ _ _ _ (by omega), readU32_writeU32_ne _ _ _ _ (by omega),
      readU32_writeU32_ne _ _ _ _ (by omega), readU32_writeU32_ne _ _ _ _ (by omega),
      readU32_writeU32_ne _ _ _ _ (by omega), readU32_writeU32]
  · rw [readU32_writeU32_ne _ _ _ _ (by omega), readU32_writeU32_ne _ _ _ _ (by omega),
      readU32_writeU32_ne _ _ _ _ (by omega), readU32_writeU32_ne _ _ _ _ (by omega),
      readU32_writeU32]
  · rw [readU32_writeU32_ne _ _ _ _ (by omega), readU32_writeU32_ne _ _ _ _ (by omega),
      readU32_writeU32_ne _ _ _ _ (by omega), readU32_writeU32]
  · rw [readU32_writeU32_ne _ _ _ _ (by omega), readU32_writeU32_ne _ _ _ _ (by omega),
      readU32_writeU32]
  · rw [readU32_writeU32_ne _ _ _ _ (by omega), readU32_writeU32]
  · rw [readU32_writeU32]

theorem writeParticlesFrom_data_outside (ps : List HostParticle) :
    ∀ (pData mapping : Buf) (i0 j : ℕ),
      (j < 24 * i0 ∨ 24 * (i0 + ps.length) ≤ j) →
      (writeParticlesFrom pData mapping i0 ps).1 j = pData j := by
  induction ps with
  | nil => intro _ _ _ _ _; rfl
  | cons p rest ih =>
    intro pData mapping i0 j hj
    simp only [List.length_cons] at hj
    simp only [writeParticlesFrom]
    rw [ih _ _ (i0 + 1) j (by omega)]
    exact particleTo_outside _ _ _ (by omega)

theorem writeParticlesFrom_data_read (ps : List HostParticle) :
    ∀ (pData mapping : Buf) (i0 t : ℕ) (ht : t < ps.length),
      readU32 (writeParticlesFrom pData mapping i0 ps).1 (24 * (i0 + t)) =
        (ps.get ⟨t, ht⟩).px % 4294967296 ∧
      readU32 (writeParticlesFrom pData mapping i0 ps).1 (24 * (i0 + t) + 4) =
        (ps.get ⟨t, ht⟩).py % 4294967296 ∧
      readU32 (writeParticlesFrom pData mapping i0 ps).1 (24 * (i0 + t) + 8) =
        (ps.get ⟨t, ht⟩).vx % 4294967296 ∧
      readU32 (writeParticlesFrom pData mapping i0 ps).1 (24 * (i0 + t) + 12) =
        (ps.get ⟨t, ht⟩).vy % 4294967296 ∧
      readU32 (writeParticlesFrom pData mapping i0 ps).1 (24 * (i0 + t) + 16) =
        (ps.get ⟨t, ht⟩).ax % 4294967296 ∧
      readU32 (writeParticlesFrom pData mapping i0 ps).1 (24 * (i0 + t) + 20) =
        (ps.get ⟨t, ht⟩).ay % 4294967296 := by
  induction ps with
  | nil => intro _ _ _ t ht; simp at ht
  | cons p rest ih =>
    intro pData mapping i0 t ht
    rcases Nat.eq_zero_or_pos t with h0 | hpos
    · subst h0
      simp only [writeParticlesFrom, List.get]
      obtain ⟨r1, r2, r3, r4, r5, r6⟩ := particleTo_read pData (24 * i0) p
      refine ⟨?_, ?_, ?_, ?_, ?_, ?_⟩
      · rw [readU32_congr (writeParticlesFrom_data_outside rest _ _ (i0 + 1) _ (by omega))
          (writeParticlesFrom_data_outside rest _ _ (i0 + 1) _ (by omega))
          (writeParticlesFrom_data_outside rest _ _ (i0 + 1) _ (by omega))
          (writeParticlesFrom_data_outside rest _ _ (i0 + 1) _ (by omega))]
        simpa using r1
      · rw [readU32_congr (writeParticlesFrom_data_outside rest _ _ (i0 + 1) _ (by omega))
          (writeParticlesFrom_data_outside rest _ _ (i0 + 1) _ (by omega))
          (writeParticlesFrom_data_outside rest _ _ (i0 + 1) _ (by omega))
          (writeParticlesFrom_data_outside rest _ _ (i0 + 1) _ (by omega))]
        simpa using r2
      · rw [readU32_congr (writeParticlesFrom_data_outside rest _ _ (i0 + 1) _ (by omega))
          (writeParticlesFrom_data_outside rest _ _ (i0 + 1) _ (by omega))
          (writeParticlesFrom_data_outside rest _ _ (i0 + 1) _ (by omega))
          (writeParticlesFrom_data_outside rest _ _ (i0 + 1) _ (by omega))]
        simpa using r3
      · rw [readU32_congr (writeParticlesFrom_data_outside rest _ _ (i0 + 1) _ (by omega))
          (writeParticlesFrom_data_outside rest _ _ (i0 + 1) _ (by omega))
          (writeParticlesFrom_data_outside rest _ _ (i0 + 1) _ (by omega))
          (writeParticlesFrom_data_outside rest _ _ (i0 + 1) _ (by omega))]
        simpa using r4
      · rw [readU32_congr (writeParticlesFrom_data_outside rest _ _ (i0 + 1) _ (by omega))
          (writeParticlesFrom_data_outside rest _ _ (i0 + 1) _ (by omega))
          (writeParticlesFrom_data_outside rest _ _ (i0 + 1) _ (by omega))
          (writeParticlesFrom_data_outside rest _ _ (i0 + 1) _ (by omega))]
        simpa using r5
      · rw [readU32_congr (writeParticlesFrom_data_outside rest _ _ (i0 + 1) _ (by omega))
          (writeParticlesFrom_data_outside rest _ _ (i0 + 1) _ (by omega))
          (writeParticlesFrom_data_outside rest _ _ (i0 + 1) _ (by omega))
          (writeParticlesFrom_data_outside rest _ _ (i0 + 1) _ (by omega))]
        simpa using r6
    · obtain ⟨u, rfl⟩ : ∃ u, t = u + 1 := ⟨t - 1, by omega⟩
      have harith : i0 + (u + 1) = i0 + 1 + u := by omega
      simp only [writeParticlesFrom, harith, List.get]
      exact ih _ _ (i0 + 1) u (by simp only [List.length_cons] at ht; omega)

theorem writeBeamsFrom_data_outside (bs : List HostBeam) :
    ∀ (maxP maxB : ℕ) (remap : ℤ → ℤ) (bData mapping : Buf) (i0 j : ℕ),
      (j < 40 * i0 ∨ 40 * (i0 + bs.length) ≤ j) →
      (writeBeamsFrom maxP maxB remap bData mapping i0 bs).1 j = bData j := by
  induction bs with
  | nil => intro _ _ _ _ _ _ _ _; rfl
  | cons x rest ih =>
    intro maxP maxB remap bData mapping i0 j hj
    simp only [List.length_cons] at hj
    simp only [writeBeamsFrom]
    rw [ih _ _ _ _ _ (i0 + 1) j (by omega)]
    exact beamDataTo_outside _ _ _ _ _ (by omega)

theorem writeBeamsFrom_data_read (bs : List HostBeam) :
    ∀ (maxP maxB : ℕ) (remap : ℤ → ℤ) (bData mapping : Buf) (i0 t : ℕ)
      (ht : t < bs.length),
      (0 ≤ remap (bs.get ⟨t, ht⟩).a ∧ remap (bs.get ⟨t, ht⟩).a < (maxP : ℤ)) →
      (0 ≤ remap (bs.get ⟨t, ht⟩).b ∧ remap (bs.get ⟨t, ht⟩).b < (maxP : ℤ)) →
      readU16 (writeBeamsFrom maxP maxB remap bData mapping i0 bs).1
          (40 * (i0 + t)) = readU16 mapping (2 * (remap (bs.get ⟨t, ht⟩).a).toNat) ∧
      readU16 (writeBeamsFrom maxP maxB remap bData mapping i0 bs).1
          (40 * (i0 + t) + 2) = readU16 mapping (2 * (remap (bs.get ⟨t, ht⟩).b).toNat) ∧
      readU32 (writeBeamsFrom maxP maxB remap bData mapping i0 bs).1
          (40 * (i0 + t) + 4) = (bs.get ⟨t, ht⟩).length % 4294967296 ∧
      readU32 (writeBeamsFrom maxP maxB remap bData mapping i0 bs).1
          (40 * (i0 + t) + 8) = (bs.get ⟨t, ht⟩).targetLen % 4294967296 ∧
      readU32 (writeBeamsFrom maxP maxB remap bData mapping i0 bs).1
          (40 * (i0 + t) + 12) = (bs.get ⟨t, ht⟩).lastLen % 4294967296 ∧
      readU32 (writeBeamsFrom maxP maxB remap bData mapping i0 bs).1
          (40 * (i0 + t) + 16) = (bs.get ⟨t, ht⟩).spring % 4294967296 ∧
      readU32 (writeBeamsFrom maxP maxB remap bData mapping i0 bs).1
          (40 * (i0 + t) + 20) = (bs.get ⟨t, ht⟩).damp % 4294967296 ∧
      readU32 (writeBeamsFrom maxP maxB remap bData mapping i0 bs).1
          (40 * (i0 + t) + 24) = (bs.get ⟨t, ht⟩).yieldStrain % 4294967296 ∧
      readU32 (writeBeamsFrom maxP maxB remap bData mapping i0 bs).1
          (40 * (i0 + t) + 28) = (bs.get ⟨t, ht⟩).strainLimit % 4294967296 := by
  induction bs with
  | nil => intro _ _ _ _ _ _ t ht; simp at ht
  | cons x rest ih =>
    intro maxP maxB remap bData mapping i0 t ht ha hb
    rcases Nat.eq_zero_or_pos t with h0 | hpos
    · subst h0
      simp only [List.get] at ha hb ⊢
      simp only [writeBeamsFrom, Nat.add_zero]
      have hia : readU16Checked (writeU16 mapping (2 * (maxP + i0)) i0)
          (maxP + maxB) (remap x.a) = readU16 mapping (2 * (remap x.a).toNat) := by
        rw [readU16Checked, if_pos ⟨ha.1, by omega⟩]
        exact readU16_writeU16_ne _ _ _ _ (by omega)
      have hib : readU16Checked (writeU16 mapping (2 * (maxP + i0)) i0)
          (maxP + maxB) (remap x.b) = readU16 mapping (2 * (remap x.b).toNat) := by
        rw [readU16Checked, if_pos ⟨hb.1, by omega⟩]
        exact readU16_writeU16_ne _ _ _ _ (by omega)
      obtain ⟨r1, r2, r3, r4, r5, r6, r7, r8, r9⟩ := beamDataTo_read bData (40 * i0)
        (readU16Checked (writeU16 mapping (2 * (maxP + i0)) i0) (maxP + maxB) (remap x.a))
        (readU16Checked (writeU16 mapping (2 * (maxP + i0)) i0) (maxP + maxB) (remap x.b)) x
      refine ⟨?_, ?_, ?_, ?_, ?_, ?_, ?_, ?_, ?_⟩
      · rw [readU16_congr (writeBeamsFrom_data_outside rest _ _ _ _ _ (i0 + 1) _ (by omega))
          (writeBeamsFrom_data_outside rest _ _ _ _ _ (i0 + 1) _ (by omega))]
        rw [r1, hia]
        exact Nat.mod_eq_of_lt (readU16_lt _ _)
      · rw [readU16_congr (writeBeamsFrom_data_outside rest _ _ _ _ _ (i0 + 1) _ (by omega))
          (writeBeamsFrom_data_outside rest _ _ _ _ _ (i0 + 1) _ (by omega))]
        rw [r2, hib]
        exact Nat.mod_eq_of_lt (readU16_lt _ _)
      · rw [readU32_congr (writeBeamsFrom_data_outside rest _ _ _ _ _ (i0 + 1) _ (by omega))
          (writeBeamsFrom_data_outside rest _ _ _ _ _ (i0 + 1) _ (by omega))
          (writeBeamsFrom_data_outside rest _ _ _ _ _ (i0 + 1) _ (by omega))
          (writeBeamsFrom_data_outside rest _ _ _ _ _ (i0 + 1) _ (by omega))]
        exact r3
      · rw [readU32_congr (writeBeamsFrom_data_outside rest _ _ _ _ _ (i0 + 1) _ (by omega))
          (writeBeamsFrom_data_outside rest _ _ _ _ _ (i0 + 1) _ (by omega))
          (writeBeamsFrom_data_outside rest _ _ _ _ _ (i0 + 1) _ (by omega))
          (writeBeamsFrom_data_outside rest _ _ _ _ _ (i0 + 1) _ (by omega))]
        exact r4
      · rw [readU32_congr (writeBeamsFrom_data_outside rest _ _ _ _ _ (i0 + 1) _ (by omega))
          (writeBeamsFrom_data_outside rest _ _ _ _ _ (i0 + 1) _ (by omega))
          (writeBeamsFrom_data_outside rest _ _ _ _ _ (i0 + 1) _ (by omega))
          (writeBeamsFrom_data_outside rest _ _ _ _ _ (i0 + 1) _ (by omega))]
        exact r5
      · rw [readU32_congr (writeBeamsFrom_data_outside rest _ _ _ _ _ (i0 + 1) _ (by omega))
          (writeBeamsFrom_data_outside rest _ _ _ _ _ (i0 + 1) _ (by omega))
          (writeBeamsFrom_data_outside rest _ _ _ _ _ (i0 + 1) _ (by omega))
          (writeBeamsFrom_data_outside rest _ _ _ _ _ (i0 + 1) _ (by omega))]
        exact r6
      · rw [readU32_congr (writeBeamsFrom_data_outside rest _ _ _ _ _ (i0 + 1) _ (by omega))
          (writeBeamsFrom_data_outside rest _ _ _ _ _ (i0 + 1) _ (by omega))
          (writeBeamsFrom_data_outside rest _ _ _ _ _ (i0 + 1) _ (by omega))
          (writeBeamsFrom_data_outside rest _ _ _ _ _ (i0 + 1) _ (by omega))]
        exact r7
      · rw [readU32_congr (writeBeamsFrom_data_outside rest _ _ _ _ _ (i0 + 1) _ (by omega))
          (writeBeamsFrom_data_outside rest _ _ _ _ _ (i0 + 1) _ (by omega))
          (writeBeamsFrom_data_outside rest _ _ _ _ _ (i0 + 1) _ (by omega))
          (writeBeamsFrom_data_outside rest _ _ _ _ _ (i0 + 1) _ (by omega))]
        exact r8
      · rw [readU32_congr (writeBeamsFrom_data_outside rest _ _ _ _ _ (i0 + 1) _ (by omega))
          (writeBeamsFrom_data_outside rest _ _ _ _ _ (i0 + 1) _ (by omega))
          (writeBeamsFrom_data_outside rest _ _ _ _ _ (i0 + 1) _ (by omega))
          (writeBeamsFrom_data_outside rest _ _ _ _ _ (i0 + 1) _ (by omega))]
        exact r9
    · obtain ⟨u, rfl⟩ : ∃ u, t = u + 1 := ⟨t - 1, by omega⟩
      simp only [List.get] at ha hb ⊢
      have hlt : u < rest.length := by simp only [List.length_cons] at ht; omega
      have harith : i0 + (u + 1) = i0 + 1 + u := by omega
      simp only [writeBeamsFrom, harith]
      have hswapA : readU16 (writeU16 mapping (2 * (maxP + i0)) i0)
          (2 * (remap (rest.get ⟨u, hlt⟩).a).toNat) =
          readU16 mapping (2 * (remap (rest.get ⟨u, hlt⟩).a).toNat) :=
        readU16_writeU16_ne _ _ _ _ (by omega)
      have hswapB : readU16 (writeU16 mapping (2 * (maxP + i0)) i0)
          (2 * (remap (rest.get ⟨u, hlt⟩).b).toNat) =
          readU16 mapping (2 * (remap (rest.get ⟨u, hlt⟩).b).toNat) :=
        readU16_writeU16_ne _ _ _ _ (by omega)
      rw [← hswapA, ← hswapB]
      exact ih maxP maxB remap _ _ (i0 + 1) u hlt ha hb

/-! ### Lemmas about the host-map reconstruction of `loadState` -/

theorem idRemap_nonneg_lt (ps : List HostParticle) (e : ℤ)
    (h : ∃ p ∈ ps, (p.id : ℤ) = e) :
    0 ≤ idRemap ps e ∧ idRemap ps e < (ps.length : ℤ) := by
  obtain ⟨p, hp, hpe⟩ := h
  unfold idRemap
  rcases hfind : ps.enum.find? (fun q => ((q.2.id : ℤ)) == e) with _ | q
  · exfalso
    rw [List.find?_eq_none] at hfind
    obtain ⟨i, hget⟩ := List.mem_iff_get.mp hp
    have hmem : ((i : ℕ), p) ∈ ps.enum := by
      rw [List.mk_mem_enum_iff_getElem?, List.getElem?_eq_getElem i.isLt]
      simp [← hget]
    exact hfind _ hmem (by simp [hpe])
  · obtain ⟨qi, qp⟩ := q
    have hq := List.mem_of_find?_eq_some hfind
    rw [List.mk_mem_enum_iff_getElem?] at hq
    have hlt : qi < ps.length := by
      by_contra hcon
      rw [List.getElem?_eq_none (by omega)] at hq
      exact Option.noConfusion hq
    rw [hfind]
    show 0 ≤ ((qi : ℕ) : ℤ) ∧ ((qi : ℕ) : ℤ) < (ps.length : ℤ)
    exact ⟨Int.ofNat_nonneg qi, by exact_mod_cast hlt⟩

theorem find?_range_eq_some :
    ∀ (v : ℕ) (p : ℕ → Bool) (count : ℕ), v < count → p v = true →
      (∀ j, j < v → p j = false) →
      (List.range count).find? p = some v := by
  intro v
  induction v with
  | zero =>
    intro p count hc hp _
    obtain ⟨c, rfl⟩ : ∃ c, count = c + 1 := ⟨count - 1, by omega⟩
    rw [List.range_succ_eq_map]
    rw [List.find?_cons_of_pos _ hp]
  | succ w ih =>
    intro p count hc hp hbelow
    obtain ⟨c, rfl⟩ : ∃ c, count = c + 1 := ⟨count - 1, by omega⟩
    rw [List.range_succ_eq_map]
    rw [List.find?_cons_of_neg _ (by simp [hbelow 0 (by omega)])]
    rw [List.find?_map]
    rw [ih (p ∘ Nat.succ) c (by omega) (by simpa using hp)
      (fun j hj => by simpa using hbelow (j + 1) (by omega))]
    rfl

theorem indexOfU16_eq (mapping : Buf) (count v : ℕ) (hv : v < count)
    (hself : readU16 mapping (2 * v) = v)
    (hbelow : ∀ j, j < v → readU16 mapping (2 * j) = j) :
    indexOfU16 mapping count v = (v : ℤ) := by
  unfold indexOfU16
  rw [find?_range_eq_some v _ count hv (by simp [hself]) ?_]
  intro j hj
  simp only [beq_eq_false_iff_ne, ne_eq, hbelow j hj]
  omega

theorem addParticle_success (M : Mapper) (p : HostParticle)
    (h1 : M.particles.length ≠ M.maxParticles)
    (h2 : ∀ q ∈ M.particles, q.id ≠ p.id) :
    addParticle M p = ({ M with particles := M.particles ++ [p] }, true) := by
  rw [addParticle, if_neg]
  simp only [Bool.or_eq_true, beq_iff_eq, List.any_eq_true, not_or, not_exists]
  push_neg
  exact ⟨h1, fun q hq => h2 q hq⟩

theorem addBeam_success_fields (M : Mapper) (x : HostBeam)
    (h1 : M.beams.length ≠ M.maxBeams)
    (h2 : ∀ q ∈ M.beams, q.id ≠ x.id) :
    (addBeam M x).1.beams = M.beams ++ [x] ∧
    (addBeam M x).1.particles = M.particles ∧
    (addBeam M x).1.maxParticles = M.maxParticles ∧
    (addBeam M x).1.maxBeams = M.maxBeams ∧
    (addBeam M x).1.metadata = M.metadata := by
  rw [addBeam, if_neg]
  · exact ⟨rfl, rfl, rfl, rfl, rfl⟩
  · simp only [Bool.or_eq_true, beq_iff_eq, List.any_eq_true, not_or, not_exists]
    push_neg
    exact ⟨h1, fun q hq => h2 q hq⟩

theorem foldl_addParticle (f : ℕ → HostParticle) (hid : ∀ i, (f i).id = i) :
    ∀ (n : ℕ) (M0 : Mapper), M0.particles = [] → n ≤ M0.maxParticles →
      (List.range n).foldl (fun acc i => (addParticle acc (f i)).1) M0 =
        { M0 with particles := (List.range n).map f } := by
  intro n
  induction n with
  | zero =>
    intro M0 h0 _
    cases M0
    simp only at h0
    subst h0
    rfl
  | succ m ih =>
    intro M0 h0 hcap
    rw [List.range_succ, List.foldl_append, ih M0 h0 (by omega)]
    simp only [List.foldl_cons, List.foldl_nil]
    rw [addParticle_success _ _ ?_ ?_]
    · simp [List.range_succ]
    · simp only []
      rw [List.length_map, List.length_range]
      omega
    · intro q hq
      simp only [List.mem_map, List.mem_range] at hq
      obtain ⟨i, hi, rfl⟩ := hq
      rw [hid, hid]
      omega

theorem foldl_addBeam (g : ℕ → HostBeam) (hid : ∀ i, (g i).id = i) :
    ∀ (k : ℕ) (M1 : Mapper), M1.beams = [] → k ≤ M1.maxBeams →
      (((List.range k).foldl (fun acc i => (addBeam acc (g i)).1) M1).beams =
          (List.range k).map g ∧
        ((List.range k).foldl (fun acc i => (addBeam acc (g i)).1) M1).particles =
          M1.particles ∧
        ((List.range k).foldl (fun acc i => (addBeam acc (g i)).1) M1).maxParticles =
          M1.maxParticles ∧
        ((List.range k).foldl (fun acc i => (addBeam acc (g i)).1) M1).maxBeams =
          M1.maxBeams ∧
        ((List.range k).foldl (fun acc i => (addBeam acc (g i)).1) M1).metadata =
          M1.metadata) := by
  intro k
  induction k with
  | zero =>
    intro M1 h1 _
    exact ⟨by simp [h1], rfl, rfl, rfl, rfl⟩
  | succ m ih =>
    intro M1 h1 hcap
    rw [List.range_succ, List.foldl_append]
    obtain ⟨hb, hp, hmp, hmb, hmd⟩ := ih M1 h1 (by omega)
    simp only [List.foldl_cons, List.foldl_nil]
    obtain ⟨sb, sp, smp, smb, smd⟩ := addBeam_success_fields
      ((List.range m).foldl (fun acc i => (addBeam acc (g i)).1) M1) (g m)
      (by rw [hb, hmb, List.length_map, List.length_range]; omega)
      (by rw [hb]
          intro q hq
          simp only [List.mem_map, List.mem_range] at hq
          obtain ⟨i, hi, rfl⟩ := hq
          rw [hid, hid]
          omega)
    refine ⟨?_, ?_, ?_, ?_, ?_⟩
    · rw [sb, hb]
      simp [List.range_succ]
    · rw [sp, hp]
    · rw [smp, hmp]
    · rw [smb, hmb]
    · rw [smd, hmd]

/-! ### Characterisation of `writeState` and the snapshot blob -/

theorem writeState_metadata (M : Mapper)
    (hn : M.particles.length < 4294967296) (hk : M.beams.length < 4294967296) :
    readU32 (writeState M).metadata 4 = M.particles.length ∧
    readU32 (writeState M).metadata 24 = M.beams.length ∧
    (∀ j, (j < 4 ∨ (8 ≤ j ∧ j < 24) ∨ 28 ≤ j) →
      (writeState M).metadata j = M.metadata j) := by
  refine ⟨?_, ?_, ?_⟩
  · show readU32 (writeU32 (writeU32 M.metadata 4 M.particles.length)
      24 M.beams.length) 4 = _
    rw [readU32_writeU32_ne _ _ _ _ (by omega), readU32_writeU32, Nat.mod_eq_of_lt hn]
  · show readU32 (writeU32 (writeU32 M.metadata 4 M.particles.length)
      24 M.beams.length) 24 = _
    rw [readU32_writeU32, Nat.mod_eq_of_lt hk]
  · intro j hj
    show writeU32 (writeU32 M.metadata 4 M.particles.length) 24 M.beams.length j = _
    rw [writeU32_ne _ _ _ (by omega), writeU32_ne _ _ _ (by omega)]

theorem writeState_mapping_particle (M : Mapper) (i : ℕ)
    (hi : i < M.particles.length) (hcap : M.particles.length ≤ M.maxParticles)
    (hmax : M.maxParticles ≤ 65536) :
    readU16 (writeState M).mapping (2 * i) = i := by
  simp only [writeState]
  rw [readU16_congr
    (writeBeamsFrom_mapping_outside M.beams _ _ _ _ _ 0 _ (Or.inl (by omega)))
    (writeBeamsFrom_mapping_outside M.beams _ _ _ _ _ 0 _ (Or.inl (by omega)))]
  have h := writeParticlesFrom_mapping_read M.particles M.particleData M.mapping 0 i hi
  simp only [Nat.zero_add] at h
  rw [h]
  omega

theorem writeState_mapping_beam (M : Mapper) (j : ℕ)
    (hj : j < M.beams.length) (hcap : M.beams.length ≤ M.maxBeams)
    (hmax : M.maxBeams ≤ 65536) :
    readU16 (writeState M).mapping (2 * (M.maxParticles + j)) = j := by
  simp only [writeState]
  have h := writeBeamsFrom_mapping_read M.beams M.maxParticles M.maxBeams
    (idRemap M.particles) M.beamData
    (writeParticlesFrom M.particleData M.mapping 0 M.particles).2 0 j hj
  simp only [Nat.add_zero, Nat.zero_add] at h
  rw [h]
  omega

theorem writeState_particleData (M : Mapper) (i : ℕ) (hi : i < M.particles.length) :
    readU32 (writeState M).particleData (24 * i) =
      (M.particles.get ⟨i, hi⟩).px % 4294967296 ∧
    readU32 (writeState M).particleData (24 * i + 4) =
      (M.particles.get ⟨i, hi⟩).py % 4294967296 ∧
    readU32 (writeState M).particleData (24 * i + 8) =
      (M.particles.get ⟨i, hi⟩).vx % 4294967296 ∧
    readU32 (writeState M).particleData (24 * i + 12) =
      (M.particles.get ⟨i, hi⟩).vy % 4294967296 ∧
    readU32 (writeState M).particleData (24 * i + 16) =
      (M.particles.get ⟨i, hi⟩).ax % 4294967296 ∧
    readU32 (writeState M).particleData (24 * i + 20) =
      (M.particles.get ⟨i, hi⟩).ay % 4294967296 := by
  have h := writeParticlesFrom_data_read M.particles M.particleData M.mapping 0 i hi
  simp only [Nat.zero_add] at h
  exact h

theorem writeState_beamData (M : Mapper) (j : ℕ) (hj : j < M.beams.length)
    (ha : ∃ p ∈ M.particles, (p.id : ℤ) = (M.beams.get ⟨j, hj⟩).a)
    (hb : ∃ p ∈ M.particles, (p.id : ℤ) = (M.beams.get ⟨j, hj⟩).b)
    (hcap : M.particles.length ≤ M.maxParticles)
    (hmax : M.maxParticles ≤ 65536) :
    readU16 (writeState M).beamData (40 * j) =
      (idRemap M.particles (M.beams.get ⟨j, hj⟩).a).toNat ∧
    readU16 (writeState M).beamData (40 * j + 2) =
      (idRemap M.particles (M.beams.get ⟨j, hj⟩).b).toNat ∧
    readU32 (writeState M).beamData (40 * j + 4) =
      (M.beams.get ⟨j, hj⟩).length % 4294967296 ∧
    readU32 (writeState M).beamData (40 * j + 8) =
      (M.beams.get ⟨j, hj⟩).targetLen % 4294967296 ∧
    readU32 (writeState M).beamData (40 * j + 12) =
      (M.beams.get ⟨j, hj⟩).lastLen % 4294967296 ∧
    readU32 (writeState M).beamData (40 * j + 16) =
      (M.beams.get ⟨j, hj⟩).spring % 4294967296 ∧
    readU32 (writeState M).beamData (40 * j + 20) =
      (M.beams.get ⟨j, hj⟩).damp % 4294967296 ∧
    readU32 (writeState M).beamData (40 * j + 24) =
      (M.beams.get ⟨j, hj⟩).yieldStrain % 4294967296 ∧
    readU32 (writeState M).beamData (40 * j + 28) =
      (M.beams.get ⟨j, hj⟩).strainLimit % 4294967296 := by
  have hra := idRemap_nonneg_lt M.particles (M.beams.get ⟨j, hj⟩).a ha
  have hrb := idRemap_nonneg_lt M.particles (M.beams.get ⟨j, hj⟩).b hb
  have h := writeBeamsFrom_data_read M.beams M.maxParticles M.maxBeams
    (idRemap M.particles) M.beamData
    (writeParticlesFrom M.particleData M.mapping 0 M.particles).2 0 j hj
    ⟨hra.1, by omega⟩ ⟨hrb.1, by omega⟩
  simp only [Nat.zero_add] at h
  obtain ⟨h1, h2, h3, h4, h5, h6, h7, h8, h9⟩ := h
  have hmra : readU16 (writeParticlesFrom M.particleData M.mapping 0 M.particles).2
      (2 * (idRemap M.particles (M.beams.get ⟨j, hj⟩).a).toNat) =
      (idRemap M.particles (M.beams.get ⟨j, hj⟩).a).toNat := by
    have hg := writeParticlesFrom_mapping_read M.particles M.particleData M.mapping 0
      (idRemap M.particles (M.beams.get ⟨j, hj⟩).a).toNat (by omega)
    simp only [Nat.zero_add] at hg
    rw [hg]
    omega
  have hmrb : readU16 (writeParticlesFrom M.particleData M.mapping 0 M.particles).2
      (2 * (idRemap M.particles (M.beams.get ⟨j, hj⟩).b).toNat) =
      (idRemap M.particles (M.beams.get ⟨j, hj⟩).b).toNat := by
    have hg := writeParticlesFrom_mapping_read M.particles M.particleData M.mapping 0
      (idRemap M.particles (M.beams.get ⟨j, hj⟩).b).toNat (by omega)
    simp only [Nat.zero_add] at hg
    rw [hg]
    omega
  exact ⟨by rw [show (writeState M).beamData =
      (writeBeamsFrom M.maxParticles M.maxBeams (idRemap M.particles) M.beamData
        (writeParticlesFrom M.particleData M.mapping 0 M.particles).2 0 M.beams).1
      from rfl, h1, hmra],
    by rw [show (writeState M).beamData =
      (writeBeamsFrom M.maxParticles M.maxBeams (idRemap M.particles) M.beamData
        (writeParticlesFrom M.particleData M.mapping 0 M.particles).2 0 M.beams).1
      from rfl, h2, hmrb], h3, h4, h5, h6, h7, h8, h9⟩

theorem createSnapshot_state (M : Mapper) :
    (createSnapshotBuffer M).1 = writeState M := rfl

theorem createSnapshot_bytes (M : Mapper)
    (hn : 24 * M.particles.length < 65536)
    (hk : 40 * M.beams.length < 65536) :
    readU16 (createSnapshotBuffer M).2 0 = 2 * M.particles.length ∧
    readU16 (createSnapshotBuffer M).2 2 = 24 * M.particles.length ∧
    readU16 (createSnapshotBuffer M).2 4 = 2 * M.beams.length ∧
    readU16 (createSnapshotBuffer M).2 6 = 40 * M.beams.length ∧
    readU16 (createSnapshotBuffer M).2 8 = 32 ∧
    (∀ j, j < 32 → (createSnapshotBuffer M).2 (12 + j) =
      (writeState M).metadata (48 + j) % 256) ∧
    (∀ j, j < 2 * M.particles.length → (createSnapshotBuffer M).2 (44 + j) =
      (writeState M).mapping j % 256) ∧
    (∀ j, j < 24 * M.particles.length →
      (createSnapshotBuffer M).2 (44 + 2 * M.particles.length + j) =
      (writeState M).particleData j % 256) ∧
    (∀ j, j < 2 * M.beams.length →
      (createSnapshotBuffer M).2
        (44 + 2 * M.particles.length + 24 * M.particles.length + j) =
      (writeState M).mapping (2 * M.maxParticles + j) % 256) ∧
    (∀ j, j < 40 * M.beams.length →
      (createSnapshotBuffer M).2
        (44 + 2 * M.particles.length + 24 * M.particles.length +
          2 * M.beams.length + j) =
      (writeState M).beamData j % 256) := by
  have hwn : M.particles.length < 4294967296 := by omega
  have hwk : M.beams.length < 4294967296 := by omega
  obtain ⟨hm4, hm24, _⟩ := writeState_metadata M hwn hwk
  have hexp : (createSnapshotBuffer M).2 =
      blit (blit (blit (blit (blit
        (writeU16 (writeU16 (writeU16 (writeU16 (writeU16 zeroBuf
          0 (2 * M.particles.length)) 2 (24 * M.particles.length))
          4 (2 * M.beams.length)) 6 (40 * M.beams.length)) 8 32)
        12 (writeState M).metadata 48 32)
        44 (writeState M).mapping 0 (2 * M.particles.length))
        (44 + 2 * M.particles.length) (writeState M).particleData 0
          (24 * M.particles.length))
        (44 + 2 * M.particles.length + 24 * M.particles.length)
          (writeState M).mapping (2 * (writeState M).maxParticles)
          (2 * M.beams.length))
        (44 + 2 * M.particles.length + 24 * M.particles.length +
          2 * M.beams.length) (writeState M).beamData 0
          (40 * M.beams.length) := by
    show (createSnapshotBuffer M).2 = _
    simp only [createSnapshotBuffer]
    rw [hm4, hm24]
  have hmaxeq : (writeState M).maxParticles = M.maxParticles := rfl
  rw [hexp, hmaxeq]
  refine ⟨?_, ?_, ?_, ?_, ?_, ?_, ?_, ?_, ?_, ?_⟩
  · rw [readU16_blit_outside _ _ _ _ _ _ (by omega), readU16_blit_outside _ _ _ _ _ _ (by omega),
      readU16_blit_outside _ _ _ _ _ _ (by omega), readU16_blit_outside _ _ _ _ _ _ (by omega),
      readU16_blit_outside _ _ _ _ _ _ (by omega)]
    rw [readU16_writeU16_ne _ _ _ _ (by omega), readU16_writeU16_ne _ _ _ _ (by omega),
      readU16_writeU16_ne _ _ _ _ (by omega), readU16_writeU16_ne _ _ _ _ (by omega),
      readU16_writeU16]
    omega
  · rw [readU16_blit_outside _ _ _ _ _ _ (by omega), readU16_blit_outside _ _ _ _ _ _ (by omega),
      readU16_blit_outside _ _ _ _ _ _ (by omega), readU16_blit_outside _ _ _ _ _ _ (by omega),
      readU16_blit_outside _ _ _ _ _ _ (by omega)]
    rw [readU16_writeU16_ne _ _ _ _ (by omega), readU16_writeU16_ne _ _ _ _ (by omega),
      readU16_writeU16_ne _ _ _ _ (by omega), readU16_writeU16]
    omega
  · rw [readU16_blit_outside _ _ _ _ _ _ (by omega), readU16_blit_outside _ _ _ _ _ _ (by omega),
      readU16_blit_outside _ _ _ _ _ _ (by omega), readU16_blit_outside _ _ _ _ _ _ (by omega),
      readU16_blit_outside _ _ _ _ _ _ (by omega)]
    rw [readU16_writeU16_ne _ _ _ _ (by omega), readU16_writeU16_ne _ _ _ _ (by omega),
      readU16_writeU16]
    omega
  · rw [readU16_blit_outside _ _ _ _ _ _ (by omega), readU16_blit_outside _ _ _ _ _ _ (by omega),
      readU16_blit_outside _ _ _ _ _ _ (by omega), readU16_blit_outside _ _ _ _ _ _ (by omega),
      readU16_blit_outside _ _ _ _ _ _ (by omega)]
    rw [readU16_writeU16_ne _ _ _ _ (by omega), readU16_writeU16]
    omega
  · rw [readU16_blit_outside _ _ _ _ _ _ (by omega), readU16_blit_outside _ _ _ _ _ _ (by omega),
      readU16_blit_outside _ _ _ _ _ _ (by omega), readU16_blit_outside _ _ _ _ _ _ (by omega),
      readU16_blit_outside _ _ _ _ _ _ (by omega)]
    rw [readU16_writeU16]
  · intro j hj
    rw [blit_outside _ _ _ _ _ (by omega), blit_outside _ _ _ _ _ (by omega),
      blit_outside _ _ _ _ _ (by omega), blit_outside _ _ _ _ _ (by omega),
      blit_inside _ _ _ _ _ (by omega) (by omega)]
    have harith : 48 + (12 + j - 12) = 48 + j := by omega
    rw [harith]
  · intro j hj
    rw [blit_outside _ _ _ _ _ (by omega), blit_outside _ _ _ _ _ (by omega),
      blit_outside _ _ _ _ _ (by omega),
      blit_inside _ _ _ _ _ (by omega) (by omega)]
    have harith : 0 + (44 + j - 44) = j := by omega
    rw [harith]
  · intro j hj
    rw [blit_outside _ _ _ _ _ (by omega), blit_outside _ _ _ _ _ (by omega),
      blit_inside _ _ _ _ _ (by omega) (by omega)]
    have harith : 0 + (44 + 2 * M.particles.length + j -
      (44 + 2 * M.particles.length)) = j := by omega
    rw [harith]
  · intro j hj
    rw [blit_outside _ _ _ _ _ (by omega),
      blit_inside _ _ _ _ _ (by omega) (by omega)]
    have harith : 2 * M.maxParticles +
      (44 + 2 * M.particles.length + 24 * M.particles.length + j -
        (44 + 2 * M.particles.length + 24 * M.particles.length)) =
      2 * M.maxParticles + j := by omega
    rw [harith]
  · intro j hj
    rw [blit_inside _ _ _ _ _ (by omega) (by omega)]
    have harith : 0 + (44 + 2 * M.particles.length + 24 * M.particles.length +
      2 * M.beams.length + j -
      (44 + 2 * M.particles.length + 24 * M.particles.length +
        2 * M.beams.length)) = j := by omega
    rw [harith]

/-! ### Characterisation of the load path -/

theorem loadSnapshotbuffer_success (W : Mapper) (buf : Buf) (n k : ℕ)
    (h0 : readU16 buf 0 = 2 * n) (h2 : readU16 buf 2 = 24 * n)
    (h4 : readU16 buf 4 = 2 * k) (h6 : readU16 buf 6 = 40 * k)
    (h8 : readU16 buf 8 = 32)
    (hchk1 : 2 * n ≤ W.maxParticles) (hchk2 : 2 * k ≤ W.maxBeams) :
    loadSnapshotbuffer W buf =
      (loadState { W with
        metadata := writeU32 (writeU32 (blit W.metadata 48 buf 12 (4 * (32 / 4)))
          4 (2 * n / 2)) 24 (2 * k / 2)
        mapping := blit (blit W.mapping 0 buf (12 + 32) (2 * n))
          (2 * W.maxParticles) buf (12 + 32 + 2 * n + 24 * n) (2 * k)
        particleData := blit W.particleData 0 buf (12 + 32 + 2 * n) (24 * n)
        beamData := blit W.beamData 0 buf (12 + 32 + 2 * n + 24 * n + 2 * k)
          (40 * k) }, true) := by
  simp only [loadSnapshotbuffer]
  rw [h0, h2, h4, h6, h8]
  rw [if_neg (by omega)]

theorem loadState_eq (W : Mapper) (n k : ℕ)
    (hn : readU32 W.metadata 4 = n) (hk : readU32 W.metadata 24 = k)
    (hcapP : n ≤ W.maxParticles) (hcapB : k ≤ W.maxBeams) :
    (loadState W).particles =
      (List.range n).map (particleFrom W.particleData W.mapping) ∧
    (loadState W).beams = (List.range k).map
      (beamFrom W.beamData W.mapping W.maxParticles W.maxBeams) ∧
    (loadState W).metadata = W.metadata := by
  simp only [loadState, hn, hk]
  have hfold1 := foldl_addParticle (particleFrom W.particleData W.mapping)
    (fun _ => rfl) n
    { W with particles := [], beams := [], particleBeams := ([] : List (ℤ × List ℕ)) }
    rfl hcapP
  rw [hfold1]
  have hfold2 := foldl_addBeam
    (beamFrom W.beamData W.mapping W.maxParticles W.maxBeams) (fun _ => rfl) k
    { W with
      particles := (List.range n).map (particleFrom W.particleData W.mapping)
      beams := []
      particleBeams := ([] : List (ℤ × List ℕ)) }
    rfl hcapB
  exact ⟨hfold2.2.1, hfold2.1, hfold2.2.2.2.2⟩

/-! ### Lemmas about the delete-compaction fold -/

theorem markedList_mem {bm : ℕ → Bool} {lo len x : ℕ}
    (h : x ∈ markedList bm lo len) : lo ≤ x ∧ x < lo + len := by
  simp only [markedList, List.mem_filter, List.mem_map, List.mem_range] at h
  obtain ⟨⟨a, ha, rfl⟩, _⟩ := h
  omega

theorem markedList_length (bm : ℕ → Bool) (lo len : ℕ) :
    (markedList bm lo len).length ≤ len := by
  calc (markedList bm lo len).length
      ≤ ((List.range len).map (lo + ·)).length := List.length_filter_le _ _
    _ = len := by simp

/-- Positions below `T` are untouched by a delete fold all of whose marked
positions are at least `T`. -/
theorem deleteFold_below (l : List ℕ) :
    ∀ (m : ℕ → ℕ) (c T : ℕ), (∀ x ∈ l, T ≤ x) →
      ∀ i, i < T → (deleteFold m c l).1 i = m i := by
  induction l with
  | nil => intro _ _ _ _ _ _; rfl
  | cons a rest ih =>
    intro m c T hl i hi
    simp only [deleteFold]
    rw [ih _ _ T (fun x hx => hl x (List.mem_cons_of_mem a hx)) i hi]
    exact upd_ne _ _ _ (by have := hl a (List.mem_cons_self a rest); omega)

/-- Final cursor value of a delete fold, as the count write-back reads it. -/
theorem deleteFold_cursor (l : List ℕ) :
    ∀ (m : ℕ → ℕ) (c : ℕ), l.length ≤ c + 1 → c + 1 ≤ U32 →
      ((deleteFold m c l).2 + 1) % U32 = (c + 1 - l.length) % U32 := by
  induction l with
  | nil => intro _ _ _ _; rfl
  | cons a rest ih =>
    intro m c hlen hc
    simp only [List.length_cons] at hlen ⊢
    simp only [deleteFold]
    rcases Nat.eq_zero_or_pos c with h0 | hpos
    · subst h0
      have hrest : rest = [] := List.eq_nil_of_length_eq_zero (by omega)
      subst hrest
      simp only [deleteFold, u32sub1, U32]
      omega
    · have hcu : u32sub1 c = c - 1 := by
        simp only [u32sub1, U32] at *
        omega
      rw [hcu]
      have h := ih (upd m a (m c)) (c - 1) (by omega) (by omega)
      rw [h]
      have harith : c - 1 + 1 - rest.length = c + 1 - (rest.length + 1) := by omega
      rw [harith]

/-- Invariant of the particle-half delete fold: entries of the live prefix
stay inside `[0, B)` and the surviving prefix stays injective. -/
theorem deleteFold_inj (l : List ℕ) :
    ∀ (m : ℕ → ℕ) (c N B : ℕ),
      l.length ≤ c + 1 → c + 1 ≤ N → N ≤ U32 →
      (∀ i, i < N → m i < B) →
      (∀ i j, i < c + 1 → j < c + 1 → m i = m j → i = j) →
      (∀ i, i < N → (deleteFold m c l).1 i < B) ∧
      (∀ i j, i < c + 1 - l.length → j < c + 1 - l.length →
        (deleteFold m c l).1 i = (deleteFold m c l).1 j → i = j) := by
  induction l with
  | nil => intro m c N B _ _ _ hB hinj; exact ⟨hB, fun i j hi hj => hinj i j (by omega) (by omega)⟩
  | cons a rest ih =>
    intro m c N B hlen hcN hNU hB hinj
    simp only [List.length_cons] at hlen ⊢
    simp only [deleteFold]
    have hB1 : ∀ i, i < N → upd m a (m c) i < B := by
      intro i hi
      by_cases hia : i = a
      · subst hia; rw [upd_self]; exact hB c (by omega)
      · rw [upd_ne _ _ _ hia]; exact hB i hi
    rcases Nat.eq_zero_or_pos c with h0 | hpos
    · subst h0
      have hrest : rest = [] := List.eq_nil_of_length_eq_zero (by omega)
      subst hrest
      simp only [deleteFold]
      exact ⟨hB1, fun i j hi hj => by omega⟩
    · have hcu : u32sub1 c = c - 1 := by
        simp only [u32sub1, U32] at *
        omega
      rw [hcu]
      have hinj1 : ∀ i j, i < (c - 1) + 1 → j < (c - 1) + 1 →
          upd m a (m c) i = upd m a (m c) j → i = j := by
        intro i j hi hj heq
        by_cases hia : i = a <;> by_cases hja : j = a
        · omega
        · subst hia
          rw [upd_self, upd_ne _ _ _ hja] at heq
          have := hinj c j (by omega) (by omega) heq
          omega
        · subst hja
          rw [upd_self, upd_ne _ _ _ hia] at heq
          have := hinj i c (by omega) (by omega) heq
          omega
        · rw [upd_ne _ _ _ hia, upd_ne _ _ _ hja] at heq
          exact hinj i j (by omega) (by omega) heq
      have h := ih (upd m a (m c)) (c - 1) N B (by omega) (by omega) hNU hB1 hinj1
      refine ⟨h.1, fun i j hi hj => h.2 i j (by omega) (by omega)⟩

/-! ## Claim C4: plastic yield of the beam pass -/

/-- C4, counterexample.  With original length 100, target length 100,
yield strain 1/10 and current length 130, the strain is 3/10 with
magnitude above the yield strain; the shader sets the target length to
`130 - (1/10)*100 = 120`, whereas the claimed update
`target + sign(strain) * yield * original = 110` differs. -/
theorem c4_counterexample :
    (beamPassUpdate ⟨100, 100, 100, 1, 1, 1 / 10, 1, 0, 0⟩ 130).targetLength = 120 ∧
    |((130 : ℚ) - 100) / 100| > 1 / 10 ∧
    (100 : ℚ) + qsign (((130 : ℚ) - 100) / 100) * (1 / 10) * 100 = 110 ∧
    (120 : ℚ) ≠ 110 := by
  have h30 : ((130 : ℚ) - 100) / 100 = 3 / 10 := by norm_num
  have habs : |(3 : ℚ) / 10| = 3 / 10 := abs_of_pos (by norm_num)
  refine ⟨?_, ?_, ?_, by norm_num⟩
  · norm_num [beamPassUpdate, qsign, habs]
  · rw [h30, gt_iff_lt, habs]
    norm_num
  · norm_num [qsign]

/-- C4, amended: when `|strain| > yield_strain` (with
`strain = (len - target_len) / original_len`), the beam pass sets the
target length to `len - sign(strain) * yield_strain * original_len`; it
moves the target toward the current length so that the residual gap is
exactly `yield_strain * original_len` (rather than moving it *by* that
amount), after which the strain relative to the new target is exactly
`sign(strain) * yield_strain`.  Otherwise the target is unchanged. -/
theorem c4_plastic_yield (beam : BeamRec) (len : ℚ) (hL : 0 < beam.length) :
    (|(len - beam.targetLength) / beam.length| > beam.yieldStrain →
      (beamPassUpdate beam len).targetLength =
        len - qsign ((len - beam.targetLength) / beam.length) *
          beam.yieldStrain * beam.length ∧
      (len - (beamPassUpdate beam len).targetLength) / beam.length =
        qsign ((len - beam.targetLength) / beam.length) * beam.yieldStrain) ∧
    (¬ |(len - beam.targetLength) / beam.length| > beam.yieldStrain →
      (beamPassUpdate beam len).targetLength = beam.targetLength) := by
  constructor
  · intro h
    have h1 : (beamPassUpdate beam len).targetLength =
        len - beam.yieldStrain * beam.length *
          qsign ((len - beam.targetLength) / beam.length) := by
      simp only [beamPassUpdate, if_pos h]
    constructor
    · rw [h1]; ring
    · rw [h1]
      field_simp
      ring
  · intro h
    simp only [beamPassUpdate, if_neg h]

/-- C4, witness for the amended theorem at the counterexample instance. -/
theorem c4_plastic_yield_witness :
    (0 : ℚ) < 100 ∧
    ((|((130 : ℚ) - 100) / 100| > 1 / 10 →
      (beamPassUpdate ⟨100, 100, 100, 1, 1, 1 / 10, 1, 0, 0⟩ 130).targetLength =
        130 - qsign (((130 : ℚ) - 100) / 100) * (1 / 10) * 100 ∧
      (130 - (beamPassUpdate ⟨100, 100, 100, 1, 1, 1 / 10, 1, 0, 0⟩ 130).targetLength) / 100 =
        qsign (((130 : ℚ) - 100) / 100) * (1 / 10)) ∧
    (¬ |((130 : ℚ) - 100) / 100| > 1 / 10 →
      (beamPassUpdate ⟨100, 100, 100, 1, 1, 1 / 10, 1, 0, 0⟩ 130).targetLength = 100)) :=
  ⟨by norm_num, c4_plastic_yield ⟨100, 100, 100, 1, 1, 1 / 10, 1, 0, 0⟩ 130 (by norm_num)⟩

/-! ## Claim C6: delete-pass cursor initialization -/

/-- C6, counterexample.  With `max_particles = 4`, `ParticleCount = 1` and
`BeamCount = 1`, the kernel initializes the beam cursor to
`max_particles + beam_i_c - 1 = 4`, not to
`ParticleCount + BeamCount - 1 = 1` as claimed. -/
theorem c6_counterexample :
    deleteCursorInit 4 1 1 = (0, 4) ∧ (4 : ℕ) ≠ 1 + 1 - 1 := by
  constructor
  · simp [deleteCursorInit, U32]
  · decide

/-- C6, amended: the first lane initializes the particle cursor to
`ParticleCount - 1` and the beam cursor to `MaxParticles + BeamCount - 1`
(the beam cursor indexes into the beam half of the mapping table, which
starts at offset `MaxParticles`, not at `ParticleCount`). -/
theorem c6_delete_cursor_init (maxP pc bc : ℕ) (h1 : 1 ≤ pc) (h2 : pc < U32)
    (h3 : 1 ≤ maxP + bc) (h4 : maxP + bc < U32) :
    deleteCursorInit maxP pc bc = (pc - 1, maxP + bc - 1) := by
  simp only [deleteCursorInit, Prod.mk.injEq, U32] at *
  constructor <;> omega

/-- C6, witness for the amended theorem at `maxP = 4`, `pc = 1`, `bc = 1`. -/
theorem c6_delete_cursor_init_witness :
    (1 ≤ 1 ∧ 1 < U32 ∧ 1 ≤ 4 + 1 ∧ 4 + 1 < U32) ∧
    deleteCursorInit 4 1 1 = (1 - 1, 4 + 1 - 1) :=
  ⟨⟨le_refl 1, by decide, by decide, by decide⟩,
    c6_delete_cursor_init 4 1 1 (le_refl 1) (by decide) (by decide) (by decide)⟩

/-! ## Claim C7: border clamp keeps positions in bounds -/

/-- C7: for every incoming particle state, the record the update kernel
writes back has both position components inside `[R, bounds - R]`
(provided the interval is nonempty, i.e. `R ≤ bounds - R`): the final
statement of the particle branch overwrites the position with
`clamp(p, vec2(R), vec2(bounds - R))`. -/
theorem c7_border_clamp (R B bE bF : ℚ) (q : ParticleRec) (h : R ≤ B - R) :
    R ≤ (borderCollide R B bE bF q).px ∧ (borderCollide R B bE bF q).px ≤ B - R ∧
    R ≤ (borderCollide R B bE bF q).py ∧ (borderCollide R B bE bF q).py ≤ B - R := by
  have hx : (borderCollide R B bE bF q).px = wgslClamp q.px R (B - R) := by
    simp only [borderCollide]
  have hy : (borderCollide R B bE bF q).py = wgslClamp q.py R (B - R) := by
    simp only [borderCollide]
  rw [hx, hy]
  exact ⟨(wgslClamp_le _ _ _ h).1, (wgslClamp_le _ _ _ h).2,
    (wgslClamp_le _ _ _ h).1, (wgslClamp_le _ _ _ h).2⟩

/-- C7, witness at the engine defaults `R = 10`, `bounds = 1000` and a
particle that has left the region on the left. -/
theorem c7_border_clamp_witness :
    (10 : ℚ) ≤ 1000 - 10 ∧
    (10 ≤ (borderCollide 10 1000 (1/2) (1/5) ⟨-5, 500, -3, 2, 0, 0⟩).px ∧
     (borderCollide 10 1000 (1/2) (1/5) ⟨-5, 500, -3, 2, 0, 0⟩).px ≤ 1000 - 10 ∧
     10 ≤ (borderCollide 10 1000 (1/2) (1/5) ⟨-5, 500, -3, 2, 0, 0⟩).py ∧
     (borderCollide 10 1000 (1/2) (1/5) ⟨-5, 500, -3, 2, 0, 0⟩).py ≤ 1000 - 10) :=
  ⟨by norm_num, c7_border_clamp 10 1000 (1/2) (1/5) ⟨-5, 500, -3, 2, 0, 0⟩ (by norm_num)⟩

/-! ## Claim C8: no configuration validation at construction -/

/-- C8, counterexample.  Constructing the worker with `particleRadius = -5`
and `subticks = -3` is not rejected: a running configuration results, with
the non-positive radius stored as-is and `subticks` rounded to `-2`. -/
theorem c8_counterexample :
    (applyEngineOptions ⟨some (-5), some (-3)⟩).particleRadius = -5 ∧
    (applyEngineOptions ⟨some (-5), some (-3)⟩).subticks = -2 ∧
    (applyEngineOptions ⟨some (-5), some (-3)⟩).particleRadius ≤ 0 ∧
    (applyEngineOptions ⟨some (-5), some (-3)⟩).subticks ≤ 0 := by
  have hc : ⌈(-3 : ℚ) / 2⌉ = -1 := by
    rw [Int.ceil_eq_iff] <;> norm_num
  refine ⟨rfl, ?_, by norm_num [applyEngineOptions], ?_⟩
  · simp only [applyEngineOptions]
    rw [hc]
    norm_num
  · simp only [applyEngineOptions]
    rw [hc]
    norm_num

/-- C8, amended: the constructor performs no validation.  Any options are
accepted: the radius is stored as given (positive or not) and `subticks`
is rounded up to the nearest even integer; no `InvalidConfiguration`
failure path exists. -/
theorem c8_no_validation (r s : ℚ) :
    (applyEngineOptions ⟨some r, some s⟩).particleRadius = r ∧
    (2 : ℤ) ∣ (applyEngineOptions ⟨some r, some s⟩).subticks ∧
    s ≤ ((applyEngineOptions ⟨some r, some s⟩).subticks : ℚ) ∧
    ((applyEngineOptions ⟨some r, some s⟩).subticks : ℚ) < s + 2 := by
  refine ⟨rfl, ⟨⌈s / 2⌉, by simp [applyEngineOptions]; ring⟩, ?_, ?_⟩
  · have h := Int.le_ceil (s / 2)
    simp only [applyEngineOptions]
    push_cast
    linarith
  · have h := Int.ceil_lt_add_one (s / 2)
    simp only [applyEngineOptions]
    push_cast
    linarith

/-! ## Claim C9: the normalization guard of the beam pass -/

/-- C9: the vector handed to `normalize` by the beam pass is never the
zero vector — the endpoint difference is replaced by `(0, -1e-10)`
whenever its length vanishes — so its squared length is strictly positive
and the division inside `normalize` is always well-defined; in particular
a beam whose endpoints coincide works on the fixed nonzero vector
`(0, -1e-10)` and its force is a finite rational (no NaN can arise). -/
theorem c9_normalize_guard (pa pb : ℚ × ℚ) :
    guardedDiff pa pb ≠ (0, 0) ∧ 0 < sqLen (guardedDiff pa pb) ∧
    guardedDiff pa pa = (0, -(1 / 10 ^ 10)) := by
  refine ⟨?_, ?_, ?_⟩
  · unfold guardedDiff
    split
    · intro hcon
      have := congrArg Prod.snd hcon
      norm_num at this
    · intro hcon
      simp_all [sqLen, hcon]
  · unfold guardedDiff
    split
    · norm_num [sqLen]
    · rename_i hne
      rcases lt_or_eq_of_le (add_nonneg (mul_self_nonneg (vsub pb pa).1)
        (mul_self_nonneg (vsub pb pa).2) : 0 ≤ sqLen (vsub pb pa)) with h | h
      · exact h
      · exact absurd h.symm hne
  · unfold guardedDiff
    have : sqLen (vsub pa pa) = 0 := by simp [sqLen, vsub]
    rw [if_pos this]

/-! ## Claim C10: the delete pass is the identity on an empty bitmap -/

/-- C10: if no bit of the delete bitmap is set, the delete pass leaves
every mapping entry unchanged, writes back `ParticleCount` and
`BeamCount` equal to their prior values, and leaves the bitmap all-zero. -/
theorem c10_empty_bitmap (maxP maxB pc bc : ℕ) (m : ℕ → ℕ) (bm : ℕ → Bool)
    (hbm : ∀ i, bm i = false) (hpc : pc < U32) (hbc : bc < U32)
    (hmaxP : maxP < U32) :
    (∀ i, (computeDelete maxP maxB pc bc m bm).mapping i = m i) ∧
    (computeDelete maxP maxB pc bc m bm).particleCount = pc ∧
    (computeDelete maxP maxB pc bc m bm).beamCount = bc ∧
    (∀ i, (computeDelete maxP maxB pc bc m bm).bitmap i = false) := by
  have e1 := markedList_nil bm 0 pc hbm
  have e2 := markedList_nil bm maxP bc hbm
  refine ⟨?_, ?_, ?_, ?_⟩
  · intro i
    simp [computeDelete, e1, e2, deleteFold]
  · simp only [computeDelete, e1, e2, deleteFold, deleteCursorInit, U32] at *
    omega
  · simp only [computeDelete, e1, e2, deleteFold, deleteCursorInit, U32] at *
    omega
  · intro i
    simp [computeDelete, hbm i]

/-- C10, witness at `maxP = maxB = 4`, `pc = 2`, `bc = 1`, the identity
mapping and the all-zero bitmap. -/
theorem c10_empty_bitmap_witness :
    ((∀ i : ℕ, (fun _ : ℕ => false) i = false) ∧ 2 < U32 ∧ 1 < U32 ∧ 4 < U32) ∧
    ((∀ i, (computeDelete 4 4 2 1 (fun j => j) (fun _ => false)).mapping i = i) ∧
     (computeDelete 4 4 2 1 (fun j => j) (fun _ => false)).particleCount = 2 ∧
     (computeDelete 4 4 2 1 (fun j => j) (fun _ => false)).beamCount = 1 ∧
     (∀ i, (computeDelete 4 4 2 1 (fun j => j) (fun _ => false)).bitmap i = false)) :=
  ⟨⟨fun _ => rfl, by decide, by decide, by decide⟩,
    c10_empty_bitmap 4 4 2 1 (fun j => j) (fun _ => false)
      (fun _ => rfl) (by decide) (by decide) (by decide)⟩

/-! ## Claim C2: remove-particle does not remove attached beams -/

/-- C2, counterexample.  In a store holding particles 0 and 1 joined by
beam 5, `removeParticle 0` removes the particle — `findParticle` now
fails — but beam 5 is still found by `findBeam` and still sits in the
beam list, contradicting the claim that every beam attached to the
removed particle is removed with it. -/
theorem c2_counterexample :
    (removeParticle c2State 0).2 = true ∧
    findParticle (removeParticle c2State 0).1 0 = none ∧
    findBeam (removeParticle c2State 0).1 5 =
      some ⟨5, 0, 1, 100, 101, 102, 103, 104, 105, 106⟩ ∧
    (removeParticle c2State 0).1.beams ≠ [] := by decide

/-- C2, amended: `removeParticle` removes only the particle itself (after
which `findParticle` fails and the call reports success), and leaves the
beam map — and hence `findBeam` — completely unchanged; beams attached to
the removed particle must be removed separately (the editor does so via
`getConnectedBeams` and `removeBeam`). -/
theorem c2_remove_particle (M : Mapper) (pid : ℕ)
    (h : (findParticle M pid).isSome = true) :
    (removeParticle M pid).2 = true ∧
    findParticle (removeParticle M pid).1 pid = none ∧
    (removeParticle M pid).1.beams = M.beams ∧
    findBeam (removeParticle M pid).1 = findBeam M := by
  refine ⟨?_, ?_, rfl, rfl⟩
  · rw [findParticle, List.find?_isSome] at h
    simp only [removeParticle, List.any_eq_true]
    exact h
  · rw [findParticle, List.find?_eq_none]
    intro x hx
    rw [removeParticle] at hx
    simp only [List.mem_filter, Bool.not_eq_true'] at hx
    simp [hx.2]

/-- C2, witness for the amended theorem at the two-particle one-beam
store. -/
theorem c2_remove_particle_witness :
    (findParticle c2State 0).isSome = true ∧
    ((removeParticle c2State 0).2 = true ∧
     findParticle (removeParticle c2State 0).1 0 = none ∧
     (removeParticle c2State 0).1.beams = c2State.beams ∧
     findBeam (removeParticle c2State 0).1 = findBeam c2State) :=
  ⟨by decide, c2_remove_particle c2State 0 (by decide)⟩

/-! ## Claim C5: live particle mapping entries are valid and unique -/

/-- C5: two parts.  Host write: after `writeState`, for every
`i < ParticleCount` the particle-half mapping entry `i` equals `i` — a
physical slot inside `[0, MaxParticles)` — and the entries are pairwise
distinct.  Delete pass: for every delete bitmap, if the first
`ParticleCount` entries are valid slots and pairwise distinct, then after
`compute_delete` the first `ParticleCount'` entries (for the written-back
count `ParticleCount' ≤ ParticleCount`) are again valid slots and pairwise
distinct; the beam half of the pass never touches the particle half. -/
theorem c5_mapping_invariant (M : Mapper) (maxP maxB pc bc : ℕ)
    (m : ℕ → ℕ) (bm : ℕ → Bool)
    (hM1 : M.particles.length ≤ M.maxParticles) (hM2 : M.maxParticles ≤ 65536)
    (hpcU : pc < U32) (hpcP : pc ≤ maxP)
    (hmB : ∀ i, i < pc → m i < maxP)
    (hmI : ∀ i j, i < pc → j < pc → m i = m j → i = j) :
    ((∀ i, i < M.particles.length →
        readU16 (writeState M).mapping (2 * i) = i ∧
        readU16 (writeState M).mapping (2 * i) < M.maxParticles) ∧
     (∀ i j, i < M.particles.length → j < M.particles.length →
        readU16 (writeState M).mapping (2 * i) =
          readU16 (writeState M).mapping (2 * j) → i = j)) ∧
    ((computeDelete maxP maxB pc bc m bm).particleCount ≤ pc ∧
     (∀ i, i < (computeDelete maxP maxB pc bc m bm).particleCount →
        (computeDelete maxP maxB pc bc m bm).mapping i < maxP) ∧
     (∀ i j, i < (computeDelete maxP maxB pc bc m bm).particleCount →
        j < (computeDelete maxP maxB pc bc m bm).particleCount →
        (computeDelete maxP maxB pc bc m bm).mapping i =
          (computeDelete maxP maxB pc bc m bm).mapping j → i = j)) := by
  have hread : ∀ i, i < M.particles.length →
      readU16 (writeState M).mapping (2 * i) = i := by
    intro i hi
    simp only [writeState]
    rw [readU16_congr
      (writeBeamsFrom_mapping_outside M.beams _ _ _ _ _ 0 _ (Or.inl (by omega)))
      (writeBeamsFrom_mapping_outside M.beams _ _ _ _ _ 0 _ (Or.inl (by omega)))]
    have h := writeParticlesFrom_mapping_read M.particles M.particleData M.mapping 0 i hi
    simp only [Nat.zero_add] at h
    rw [h]
    omega
  constructor
  · refine ⟨fun i hi => ⟨hread i hi, ?_⟩, fun i j hi hj heq => ?_⟩
    · rw [hread i hi]; omega
    · rw [hread i hi, hread j hj] at heq; exact heq
  · -- delete pass
    have hL2lo : ∀ x ∈ markedList bm maxP bc, maxP ≤ x :=
      fun x hx => (markedList_mem hx).1
    rcases Nat.eq_zero_or_pos pc with hpc0 | hpcpos
    · subst hpc0
      have hml : markedList bm 0 0 = [] := rfl
      have hcnt : (computeDelete maxP maxB 0 bc m bm).particleCount = 0 := by
        simp only [computeDelete, deleteCursorInit, hml, deleteFold, U32]
      refine ⟨by omega, fun i hi => ?_, fun i j hi hj _ => ?_⟩ <;> omega
    · have hc1 : (0 + pc + (U32 - 1)) % U32 = pc - 1 := by
        simp only [U32] at *
        omega
      have hlen := markedList_length bm 0 pc
      have hcnt : (computeDelete maxP maxB pc bc m bm).particleCount =
          pc - (markedList bm 0 pc).length := by
        simp only [computeDelete, deleteCursorInit]
        rw [show pc + (U32 - 1) = 0 + pc + (U32 - 1) from by omega, hc1]
        rw [deleteFold_cursor _ _ _ (by omega) (by simp only [U32] at *; omega)]
        simp only [U32] at *
        omega
      have hinv := deleteFold_inj (markedList bm 0 pc) m (pc - 1) pc maxP
        (by omega) (by omega) (by simp only [U32] at *; omega)
        hmB (fun i j hi hj => hmI i j (by omega) (by omega))
      have hmapfinal : ∀ i, i < maxP →
          (computeDelete maxP maxB pc bc m bm).mapping i =
            (deleteFold m ((pc + (U32 - 1)) % U32) (markedList bm 0 pc)).1 i := by
        intro i hi
        simp only [computeDelete, deleteCursorInit]
        exact deleteFold_below _ _ _ maxP hL2lo i hi
      have hc1' : (pc + (U32 - 1)) % U32 = pc - 1 := by
        rw [show pc + (U32 - 1) = 0 + pc + (U32 - 1) from by omega, hc1]
      refine ⟨by omega, fun i hi => ?_, fun i j hi hj heq => ?_⟩
      · rw [hcnt] at hi
        rw [hmapfinal i (by omega), hc1']
        exact hinv.1 i (by omega)
      · rw [hcnt] at hi hj
        rw [hmapfinal i (by omega), hmapfinal j (by omega), hc1'] at heq
        exact hinv.2 i j (by omega) (by omega) heq

/-- C5, witness: the two-particle one-beam store written to the buffers,
and a delete pass on a four-slot device with two live particles of which
logical id 1 is marked for deletion. -/
theorem c5_mapping_invariant_witness :
    (c2State.particles.length ≤ c2State.maxParticles ∧ c2State.maxParticles ≤ 65536 ∧
     2 < U32 ∧ 2 ≤ 4 ∧ (∀ i, i < 2 → (fun j => j + 1) i < 4) ∧
     (∀ i j : ℕ, i < 2 → j < 2 → i + 1 = j + 1 → i = j)) ∧
    (((∀ i, i < c2State.particles.length →
        readU16 (writeState c2State).mapping (2 * i) = i ∧
        readU16 (writeState c2State).mapping (2 * i) < c2State.maxParticles) ∧
      (∀ i j, i < c2State.particles.length → j < c2State.particles.length →
        readU16 (writeState c2State).mapping (2 * i) =
          readU16 (writeState c2State).mapping (2 * j) → i = j)) ∧
     ((computeDelete 4 4 2 1 (fun j => j + 1) (fun i => i == 1)).particleCount ≤ 2 ∧
      (∀ i, i < (computeDelete 4 4 2 1 (fun j => j + 1) (fun i => i == 1)).particleCount →
        (computeDelete 4 4 2 1 (fun j => j + 1) (fun i => i == 1)).mapping i < 4) ∧
      (∀ i j, i < (computeDelete 4 4 2 1 (fun j => j + 1) (fun i => i == 1)).particleCount →
        j < (computeDelete 4 4 2 1 (fun j => j + 1) (fun i => i == 1)).particleCount →
        (computeDelete 4 4 2 1 (fun j => j + 1) (fun i => i == 1)).mapping i =
          (computeDelete 4 4 2 1 (fun j => j + 1) (fun i => i == 1)).mapping j → i = j))) :=
  ⟨⟨by decide, by decide, by decide, by decide, by decide,
      fun i j _ _ h => Nat.succ_injective h⟩,
    c5_mapping_invariant c2State 4 4 2 1 (fun j => j + 1) (fun i => i == 1)
      (by decide) (by decide) (by decide) (by decide) (by decide)
      (fun i j _ _ h => Nat.succ_injective h)⟩

/-! ## Claim C1: the snapshot-load capacity check compares bytes to counts -/

/-- C1: evaluation of the code at the failing input.  A store holding 3
particles and no beams on a device with `maxParticles = maxBeams = 4`
saves a snapshot whose particle-mapping header word is 6 — the section's
size in bytes, twice the live count.  The snapshot's live counts (3
particles, 0 beams) fit both capacities, yet `loadSnapshotbuffer`
compares the byte size 6 against the capacity 4 and rejects the snapshot,
returning `false` — even though it was produced by the very same device. -/
theorem c1_failing_input :
    c1State.particles.length = 3 ∧ c1State.beams.length = 0 ∧
    c1State.maxParticles = 4 ∧ c1State.maxBeams = 4 ∧
    readU16 (createSnapshotBuffer c1State).2 0 = 6 ∧
    readU16 (createSnapshotBuffer c1State).2 4 = 0 ∧
    (loadSnapshotbuffer (createSnapshotBuffer c1State).1
      (createSnapshotBuffer c1State).2).2 = false := by decide

/-! ## Claim C3: the snapshot round trip

Shared helpers first: reading a multi-byte word out of a buffer region that
holds a truncated byte copy of a section of another buffer, and byte bounds
for the freshly initialised metadata. -/

/-- Read a u16 out of a byte-copied section. -/
theorem readU16_of_section {b1 b2 : Buf} {base len : ℕ}
    (h : ∀ j, j < len → b1 (base + j) = b2 j % 256) (off : ℕ)
    (hoff : off + 2 ≤ len) :
    readU16 b1 (base + off) = readU16 b2 off := by
  simp only [readU16, readByte]
  have h0 := h off (by omega)
  have h1 := h (off + 1) (by omega)
  have e : base + off + 1 = base + (off + 1) := by omega
  rw [h0, e, h1]
  omega

/-- Read a u32 out of a byte-copied section. -/
theorem readU32_of_section {b1 b2 : Buf} {base len : ℕ}
    (h : ∀ j, j < len → b1 (base + j) = b2 j % 256) (off : ℕ)
    (hoff : off + 4 ≤ len) :
    readU32 b1 (base + off) = readU32 b2 off := by
  simp only [readU32, readByte]
  have h0 := h off (by omega)
  have h1 := h (off + 1) (by omega)
  have h2 := h (off + 2) (by omega)
  have h3 := h (off + 3) (by omega)
  have e1 : base + off + 1 = base + (off + 1) := by omega
  have e2 : base + off + 2 = base + (off + 2) := by omega
  have e3 : base + off + 3 = base + (off + 3) := by omega
  rw [h0, e1, h1, e2, h2, e3, h3]
  omega

/-- Read a u16 out of a byte-copied section whose source also sits at an
offset. -/
theorem readU16_of_section_shifted {b1 b2 : Buf} {base1 base2 len : ℕ}
    (h : ∀ j, j < len → b1 (base1 + j) = b2 (base2 + j) % 256) (off : ℕ)
    (hoff : off + 2 ≤ len) :
    readU16 b1 (base1 + off) = readU16 b2 (base2 + off) := by
  simp only [readU16, readByte]
  have h0 := h off (by omega)
  have h1 := h (off + 1) (by omega)
  have e1 : base1 + off + 1 = base1 + (off + 1) := by omega
  have e2 : base2 + (off + 1) = base2 + off + 1 := by omega
  rw [h0, e1, h1, e2]
  omega

/-- Byte stores keep every byte of the buffer below 256. -/
theorem writeByte_bound (b : Buf) (i v : ℕ) (hb : ∀ j, b j < 256) :
    ∀ j, writeByte b i v j < 256 := by
  intro j
  simp only [writeByte, upd]
  split
  · omega
  · exact hb j

/-- Word stores keep every byte of the buffer below 256. -/
theorem writeU32_bound (b : Buf) (off v : ℕ) (hb : ∀ j, b j < 256) :
    ∀ j, writeU32 b off v j < 256 := by
  simp only [writeU32]
  exact writeByte_bound _ _ _ (writeByte_bound _ _ _ (writeByte_bound _ _ _
    (writeByte_bound _ _ _ hb)))

/-- Every byte of the freshly initialised metadata buffer is below 256. -/
theorem metadataInit_bound (maxP maxB : ℕ) :
    ∀ j, metadataInit maxP maxB j < 256 := by
  simp only [metadataInit]
  exact writeU32_bound _ _ _ (writeU32_bound _ _ _ (writeU32_bound _ _ _
    (writeU32_bound _ _ _ (writeU32_bound _ _ _ (writeU32_bound _ _ _
    (writeU32_bound _ _ _ (writeU32_bound _ _ _ (writeU32_bound _ _ _
    (writeU32_bound _ _ _ (writeU32_bound _ _ _ (writeU32_bound _ _ _
    (writeU32_bound _ _ _ (fun j => by norm_num [zeroBuf])))))))))))))

/-- C3, counterexample.  The store `c3State` holds no particles and one
beam whose endpoints name the absent particles 2 and 3.  Saving and
reloading succeeds, but the reloaded beam has endpoints `(0, 0)`: both
dangling ids fall through `particleIdRemap` unchanged, miss the mapping
table and collapse to physical slot 0, which `indexOf` then resolves to
logical id 0.  No injective renumbering of logical ids maps the original
endpoint pair `(2, 3)` to `(0, 0)`, so the round trip is not an
id-renumbering equivalence on every state. -/
theorem c3_counterexample :
    (loadSnapshotbuffer (createSnapshotBuffer c3State).1
      (createSnapshotBuffer c3State).2).2 = true ∧
    c3State.beams.map (fun x => (x.a, x.b)) = [((2 : ℤ), (3 : ℤ))] ∧
    (loadSnapshotbuffer (createSnapshotBuffer c3State).1
      (createSnapshotBuffer c3State).2).1.beams.map (fun x => (x.a, x.b)) =
      [((0 : ℤ), (0 : ℤ))] ∧
    ∀ f : ℤ → ℤ, Function.Injective f →
      [(f 2, f 3)] ≠ [((0 : ℤ), (0 : ℤ))] := by
  refine ⟨by decide, by decide, by decide, ?_⟩
  intro f hf h
  simp only [List.cons.injEq, Prod.mk.injEq, eq_self_iff_true, and_true] at h
  exact absurd (hf (h.1.trans h.2.symm)) (by decide)

/-- C3 (amended): the snapshot round trip is the claimed id-renumbering
equivalence on states whose beam endpoints all name particles present in
the store, and whose sizes fit the device: each mapping section byte size
at most the capacity count (the byte-vs-count check of the load path) and
each data section below the u16 header range.  For such a state, loading
the snapshot written by saving succeeds and returns exactly the
renumbered state: particles renumbered to their insertion positions with
positions, velocities and accelerations intact, beams renumbered to their
insertion positions with endpoints rewritten through `idRemap` and all
seven f32 fields intact, and the 32-byte physics-constants slab and both
live counts preserved. -/
theorem c3_roundtrip (M : Mapper)
    (hend : ∀ x ∈ M.beams, (∃ p ∈ M.particles, (p.id : ℤ) = x.a) ∧
      (∃ p ∈ M.particles, (p.id : ℤ) = x.b))
    (hpf : ∀ p ∈ M.particles, particleFieldsLt p)
    (hbf : ∀ x ∈ M.beams, beamFieldsLt x)
    (hn : 24 * M.particles.length < 65536)
    (hk : 40 * M.beams.length < 65536)
    (hchk1 : 2 * M.particles.length ≤ M.maxParticles)
    (hchk2 : 2 * M.beams.length ≤ M.maxBeams)
    (hmaxP : M.maxParticles ≤ 65536) (hmaxB : M.maxBeams ≤ 65536)
    (hmeta : ∀ j, M.metadata j < 256) :
    (loadSnapshotbuffer (createSnapshotBuffer M).1
      (createSnapshotBuffer M).2).2 = true ∧
    (loadSnapshotbuffer (createSnapshotBuffer M).1
      (createSnapshotBuffer M).2).1.particles = renumberParticles M.particles ∧
    (loadSnapshotbuffer (createSnapshotBuffer M).1
      (createSnapshotBuffer M).2).1.beams = renumberBeams M.particles M.beams ∧
    (∀ j, j < 32 →
      (loadSnapshotbuffer (createSnapshotBuffer M).1
        (createSnapshotBuffer M).2).1.metadata (48 + j) = M.metadata (48 + j)) ∧
    readU32 (loadSnapshotbuffer (createSnapshotBuffer M).1
      (createSnapshotBuffer M).2).1.metadata 4 = M.particles.length ∧
    readU32 (loadSnapshotbuffer (createSnapshotBuffer M).1
      (createSnapshotBuffer M).2).1.metadata 24 = M.beams.length := by
  obtain ⟨h0, h2, h4, h6, h8, hmB2, hmpB, hpdB, hmbB, hbdB⟩ :=
    createSnapshot_bytes M hn hk
  have hwn : M.particles.length < 4294967296 := by omega
  have hwk : M.beams.length < 4294967296 := by omega
  obtain ⟨hws4, hws24, hwsO⟩ := writeState_metadata M hwn hwk
  have hload := loadSnapshotbuffer_success (writeState M)
    (createSnapshotBuffer M).2 M.particles.length M.beams.length
    h0 h2 h4 h6 h8 hchk1 hchk2
  have e1 : 4 * (32 / 4) = 32 := by norm_num
  have e2 : (12 : ℕ) + 32 = 44 := by norm_num
  have e3 : 2 * M.particles.length / 2 = M.particles.length := by omega
  have e4 : 2 * M.beams.length / 2 = M.beams.length := by omega
  rw [e1, e2, e3, e4] at hload
  set B := (createSnapshotBuffer M).2
  set Wmet : Buf := writeU32 (writeU32 (blit (writeState M).metadata 48 B 12 32)
    4 M.particles.length) 24 M.beams.length with hWmet
  set Wmap : Buf := blit (blit (writeState M).mapping 0 B 44
    (2 * M.particles.length)) (2 * (writeState M).maxParticles) B
    (44 + 2 * M.particles.length + 24 * M.particles.length)
    (2 * M.beams.length) with hWmap
  set Wpd : Buf := blit (writeState M).particleData 0 B
    (44 + 2 * M.particles.length) (24 * M.particles.length) with hWpd
  set Wbd : Buf := blit (writeState M).beamData 0 B
    (44 + 2 * M.particles.length + 24 * M.particles.length +
      2 * M.beams.length) (40 * M.beams.length) with hWbd
  set WL : Mapper := { writeState M with
    metadata := Wmet
    mapping := Wmap
    particleData := Wpd
    beamData := Wbd } with hWL
  have hprojMeta : WL.metadata = Wmet := by rw [hWL]
  have hprojMap : WL.mapping = Wmap := by rw [hWL]
  have hprojPd : WL.particleData = Wpd := by rw [hWL]
  have hprojBd : WL.beamData = Wbd := by rw [hWL]
  have hprojMaxP : WL.maxParticles = M.maxParticles := by rw [hWL]; rfl
  have hprojMaxB : WL.maxBeams = M.maxBeams := by rw [hWL]; rfl
  have hwsP : (writeState M).maxParticles = M.maxParticles := rfl
  have hmapsecP : ∀ off, off + 2 ≤ 2 * M.particles.length →
      readU16 Wmap off = readU16 (writeState M).mapping off := by
    intro off hoff
    rw [hWmap, hwsP]
    rw [readU16_blit_outside _ _ _ _ _ _ (Or.inl (by omega))]
    have hz : off - 0 = off := by omega
    rw [readU16_blit_inside _ _ _ _ _ _ (by omega) (by omega), hz]
    exact readU16_of_section hmpB off hoff
  have hmapPread : ∀ i, i < M.particles.length → readU16 Wmap (2 * i) = i := by
    intro i hi
    rw [hmapsecP (2 * i) (by omega)]
    exact writeState_mapping_particle M i hi (by omega) hmaxP
  have hmapsecB : ∀ off, off + 2 ≤ 2 * M.beams.length →
      readU16 Wmap (2 * M.maxParticles + off) =
        readU16 (writeState M).mapping (2 * M.maxParticles + off) := by
    intro off hoff
    rw [hWmap, hwsP]
    rw [readU16_blit_inside _ _ _ _ _ _ (by omega) (by omega)]
    have hz : 2 * M.maxParticles + off - 2 * M.maxParticles = off := by omega
    rw [hz]
    exact readU16_of_section_shifted hmbB off hoff
  have hmapBread : ∀ j, j < M.beams.length →
      readU16 Wmap (2 * (M.maxParticles + j)) = j := by
    intro j hj
    have e : 2 * (M.maxParticles + j) = 2 * M.maxParticles + 2 * j := by ring
    rw [e, hmapsecB (2 * j) (by omega), ← e]
    exact writeState_mapping_beam M j hj (by omega) hmaxB
  have hpdRead : ∀ off, off + 4 ≤ 24 * M.particles.length →
      readU32 Wpd off = readU32 (writeState M).particleData off := by
    intro off hoff
    rw [hWpd]
    have hz : off - 0 = off := by omega
    rw [readU32_blit_inside _ _ _ _ _ _ (by omega) (by omega), hz]
    exact readU32_of_section hpdB off hoff
  have hbdRead16 : ∀ off, off + 2 ≤ 40 * M.beams.length →
      readU16 Wbd off = readU16 (writeState M).beamData off := by
    intro off hoff
    rw [hWbd]
    have hz : off - 0 = off := by omega
    rw [readU16_blit_inside _ _ _ _ _ _ (by omega) (by omega), hz]
    exact readU16_of_section hbdB off hoff
  have hbdRead32 : ∀ off, off + 4 ≤ 40 * M.beams.length →
      readU32 Wbd off = readU32 (writeState M).beamData off := by
    intro off hoff
    rw [hWbd]
    have hz : off - 0 = off := by omega
    rw [readU32_blit_inside _ _ _ _ _ _ (by omega) (by omega), hz]
    exact readU32_of_section hbdB off hoff
  have hPart : ∀ (i : ℕ) (hi : i < M.particles.length),
      particleFrom Wpd Wmap i = { M.particles.get ⟨i, hi⟩ with id := i } := by
    intro i hi
    obtain ⟨w1, w2, w3, w4, w5, w6⟩ := writeState_particleData M i hi
    have hmem : M.particles.get ⟨i, hi⟩ ∈ M.particles :=
      List.mem_iff_get.mpr ⟨⟨i, hi⟩, rfl⟩
    have hf := hpf _ hmem
    simp only [particleFieldsLt] at hf
    obtain ⟨f1, f2, f3, f4, f5, f6⟩ := hf
    simp only [particleFrom, hmapPread i hi]
    rw [hpdRead (24 * i) (by omega), hpdRead (24 * i + 4) (by omega),
      hpdRead (24 * i + 8) (by omega), hpdRead (24 * i + 12) (by omega),
      hpdRead (24 * i + 16) (by omega), hpdRead (24 * i + 20) (by omega),
      w1, w2, w3, w4, w5, w6,
      Nat.mod_eq_of_lt f1, Nat.mod_eq_of_lt f2, Nat.mod_eq_of_lt f3,
      Nat.mod_eq_of_lt f4, Nat.mod_eq_of_lt f5, Nat.mod_eq_of_lt f6]
  have hBeam : ∀ (j : ℕ) (hj : j < M.beams.length),
      beamFrom Wbd Wmap M.maxParticles M.maxBeams j =
        { M.beams.get ⟨j, hj⟩ with
            id := j
            a := idRemap M.particles (M.beams.get ⟨j, hj⟩).a
            b := idRemap M.particles (M.beams.get ⟨j, hj⟩).b } := by
    intro j hj
    have hmem : M.beams.get ⟨j, hj⟩ ∈ M.beams :=
      List.mem_iff_get.mpr ⟨⟨j, hj⟩, rfl⟩
    have hxa := (hend _ hmem).1
    have hxb := (hend _ hmem).2
    have hra := idRemap_nonneg_lt M.particles _ hxa
    have hrb := idRemap_nonneg_lt M.particles _ hxb
    obtain ⟨w1, w2, w3, w4, w5, w6, w7, w8, w9⟩ :=
      writeState_beamData M j hj hxa hxb (by omega) hmaxP
    have hf := hbf _ hmem
    simp only [beamFieldsLt] at hf
    obtain ⟨f1, f2, f3, f4, f5, f6, f7⟩ := hf
    have hvaLt : (idRemap M.particles (M.beams.get ⟨j, hj⟩).a).toNat <
        M.particles.length := by omega
    have hvbLt : (idRemap M.particles (M.beams.get ⟨j, hj⟩).b).toNat <
        M.particles.length := by omega
    have hia := indexOfU16_eq Wmap (M.maxParticles + M.maxBeams)
      (idRemap M.particles (M.beams.get ⟨j, hj⟩).a).toNat (by omega)
      (hmapPread _ hvaLt) (fun i hi => hmapPread i (by omega))
    have hib := indexOfU16_eq Wmap (M.maxParticles + M.maxBeams)
      (idRemap M.particles (M.beams.get ⟨j, hj⟩).b).toNat (by omega)
      (hmapPread _ hvbLt) (fun i hi => hmapPread i (by omega))
    simp only [beamFrom, hmapBread j hj]
    rw [hbdRead16 (40 * j) (by omega), hbdRead16 (40 * j + 2) (by omega),
      hbdRead32 (40 * j + 4) (by omega), hbdRead32 (40 * j + 8) (by omega),
      hbdRead32 (40 * j + 12) (by omega), hbdRead32 (40 * j + 16) (by omega),
      hbdRead32 (40 * j + 20) (by omega), hbdRead32 (40 * j + 24) (by omega),
      hbdRead32 (40 * j + 28) (by omega),
      w1, w2, w3, w4, w5, w6, w7, w8, w9, hia, hib,
      Int.toNat_of_nonneg hra.1, Int.toNat_of_nonneg hrb.1,
      Nat.mod_eq_of_lt f1, Nat.mod_eq_of_lt f2, Nat.mod_eq_of_lt f3,
      Nat.mod_eq_of_lt f4, Nat.mod_eq_of_lt f5, Nat.mod_eq_of_lt f6,
      Nat.mod_eq_of_lt f7]
  have hm4 : readU32 Wmet 4 = M.particles.length := by
    rw [hWmet, readU32_writeU32_ne _ _ _ _ (by omega), readU32_writeU32]
    omega
  have hm24 : readU32 Wmet 24 = M.beams.length := by
    rw [hWmet, readU32_writeU32]
    omega
  have hslab : ∀ j, j < 32 → Wmet (48 + j) = M.metadata (48 + j) := by
    intro j hj
    rw [hWmet]
    rw [writeU32_ne _ _ _ (Or.inr (by omega)), writeU32_ne _ _ _ (Or.inr (by omega))]
    rw [blit_inside _ _ _ _ _ (by omega) (by omega)]
    have hz : 12 + (48 + j - 48) = 12 + j := by omega
    rw [hz, hmB2 j hj, hwsO (48 + j) (by omega)]
    have := hmeta (48 + j)
    omega
  have hplist : (List.range M.particles.length).map (particleFrom Wpd Wmap) =
      renumberParticles M.particles := by
    apply List.ext_getElem
    · simp [renumberParticles]
    · intro i h1 hh2
      have hi : i < M.particles.length := by simpa using h1
      simp only [List.getElem_map, List.getElem_range]
      rw [hPart i hi]
      simp only [renumberParticles, List.getElem_map, List.getElem_enum]
      rw [List.get_eq_getElem]
  have hblist : (List.range M.beams.length).map
      (beamFrom Wbd Wmap M.maxParticles M.maxBeams) =
      renumberBeams M.particles M.beams := by
    apply List.ext_getElem
    · simp [renumberBeams]
    · intro i h1 hh2
      have hi : i < M.beams.length := by simpa using h1
      simp only [List.getElem_map, List.getElem_range]
      rw [hBeam i hi]
      simp only [renumberBeams, List.getElem_map, List.getElem_enum]
      rw [List.get_eq_getElem]
  have hcapP : M.particles.length ≤ WL.maxParticles := by rw [hprojMaxP]; omega
  have hcapB : M.beams.length ≤ WL.maxBeams := by rw [hprojMaxB]; omega
  have hmeta4 : readU32 WL.metadata 4 = M.particles.length := by
    rw [hprojMeta]; exact hm4
  have hmeta24 : readU32 WL.metadata 24 = M.beams.length := by
    rw [hprojMeta]; exact hm24
  obtain ⟨hLp, hLb, hLm⟩ := loadState_eq WL M.particles.length M.beams.length
    hmeta4 hmeta24 hcapP hcapB
  rw [hprojPd, hprojMap] at hLp
  rw [hprojBd, hprojMap, hprojMaxP, hprojMaxB] at hLb
  rw [hprojMeta] at hLm
  rw [createSnapshot_state, hload]
  refine ⟨rfl, ?_, ?_, ?_, ?_, ?_⟩
  · show (loadState WL).particles = renumberParticles M.particles
    rw [hLp, hplist]
  · show (loadState WL).beams = renumberBeams M.particles M.beams
    rw [hLb, hblist]
  · intro j hj
    show (loadState WL).metadata (48 + j) = M.metadata (48 + j)
    rw [hLm]
    exact hslab j hj
  · show readU32 (loadState WL).metadata 4 = M.particles.length
    rw [hLm]
    exact hm4
  · show readU32 (loadState WL).metadata 24 = M.beams.length
    rw [hLm]
    exact hm24

/-- C3, witness for the amended theorem at the two-particle one-beam
store: the round trip succeeds and returns exactly the renumbered
state. -/
theorem c3_roundtrip_witness :
    (loadSnapshotbuffer (createSnapshotBuffer c2State).1
      (createSnapshotBuffer c2State).2).2 = true ∧
    (loadSnapshotbuffer (createSnapshotBuffer c2State).1
      (createSnapshotBuffer c2State).2).1.particles =
      renumberParticles c2State.particles ∧
    (loadSnapshotbuffer (createSnapshotBuffer c2State).1
      (createSnapshotBuffer c2State).2).1.beams =
      renumberBeams c2State.particles c2State.beams ∧
    (∀ j, j < 32 →
      (loadSnapshotbuffer (createSnapshotBuffer c2State).1
        (createSnapshotBuffer c2State).2).1.metadata (48 + j) =
        c2State.metadata (48 + j)) ∧
    readU32 (loadSnapshotbuffer (createSnapshotBuffer c2State).1
      (createSnapshotBuffer c2State).2).1.metadata 4 =
      c2State.particles.length ∧
    readU32 (loadSnapshotbuffer (createSnapshotBuffer c2State).1
      (createSnapshotBuffer c2State).2).1.metadata 24 =
      c2State.beams.length :=
  c3_roundtrip c2State (by decide) (by decide) (by decide) (by decide)
    (by decide) (by decide) (by decide) (by decide) (by decide)
    (fun j => by
      have h : c2State.metadata = metadataInit 4 4 := rfl
      rw [h]
      exact metadataInit_bound 4 4 j)

end Softbody
